import Mathlib

/-!
Verification of the evidence-grade-contacts pipeline core.

This file gives a shallow embedding, in Lean 4, of the parts of the pipeline
that the specification's claims are about:

* the escalation engine (`src/pipeline/escalation.py`),
* the static fetcher's robots gate (`src/pipeline/fetchers/static.py`),
* the ingest orchestrator (`src/pipeline/ingest.py`), with network and
  browser sub-stages abstracted as oracles that either return a value or
  raise (modelled with `Except`),
* the contact attributor's cross-domain email gate, free-text phone
  acceptance and post-processing dedup (`src/pipeline/extractors.py`),
* the export-layer dedup and per-person consolidation
  (`src/pipeline/export.py`),
* the `Contact`/`Evidence` data model (`src/schemas.py`).

Python regular expressions used by the code are embedded through a small
backtracking matcher (`RE` below) whose alternation is left-preferring and
whose quantifiers are greedy, matching CPython `re` semantics for the
patterns that occur in the source.  Character case-folding and the
whitespace/word classes are the ASCII fragments of their Python
counterparts; every concrete input used in this file is ASCII.
-/

namespace EGC

/-- Python `\s` (ASCII fragment): space, tab, newline, CR, VT, FF. -/
def pySpace (c : Char) : Bool :=
  c = ' ' || c = '\t' || c = '\n' || c = '\x0d' || c = '\x0b' || c = '\x0c'

/-- Python `\w` (ASCII fragment plus non-ASCII code points, which in the
patterns below only ever have to cover Cyrillic letters). -/
def pyWord (c : Char) : Bool :=
  c.isAlphanum || c = '_' || decide (128 ≤ c.toNat)

/-- Python `\d` (ASCII digits). -/
def pyDigit (c : Char) : Bool := c.isDigit

/-- `needle` occurs as a contiguous substring of `hay` (Python `in`). -/
def listContainsSub (hay needle : List Char) : Bool :=
  match hay with
  | [] => needle.isEmpty
  | _ :: rest => needle.isPrefixOf hay || listContainsSub rest needle

/-- String containment, Python's `needle in hay`. -/
def strContains (hay needle : String) : Bool :=
  listContainsSub hay.data needle.data

/-- Python `str.lower()` (ASCII fragment), character by character. -/
def strLower (s : String) : String :=
  String.mk (s.data.map Char.toLower)

/-- Python truthiness of an optional string (`if not x`): `None` and the
empty string are falsy. -/
def strTruthy : Option String → Bool
  | none => false
  | some s => !s.isEmpty

/-! ### A small backtracking regex core

Alternation prefers its left branch, `opt`/`starCls`/`repCls` are greedy,
and the continuation-passing matcher returns the first match in that
preference order — the observable behaviour of CPython's `re` engine on
the patterns embedded below (all quantified subpatterns in the source are
single character classes, which is why `starCls`/`repCls` suffice). -/

inductive RE where
  | eps : RE
  | cls (p : Char → Bool) : RE
  | seq (a b : RE) : RE
  | alt (a b : RE) : RE
  | opt (a : RE) : RE
  | starCls (p : Char → Bool) : RE
  | repCls (p : Char → Bool) (lo hi : Nat) : RE

/-- Greedy attempt of `j, j-1, …, lo` repetitions of an (already validated)
character-class run at the head of `cs`, calling the continuation on the
remainder.  `j` descends, so longer matches are preferred. -/
def repTry (k : List Char → Option (List Char)) (cs : List Char) (lo : Nat) :
    Nat → Option (List Char)
  | 0 => if lo = 0 then k cs else none
  | j + 1 =>
    if j + 1 < lo then none
    else
      match k (cs.drop (j + 1)) with
      | some r => some r
      | none => repTry k cs lo j

/-- CPS matcher: try to match `r` at the start of `cs`; on success the
continuation receives the unconsumed suffix.  Returns the suffix accepted
by the first (preference-ordered) successful continuation. -/
def reMatch : RE → List Char → (List Char → Option (List Char)) → Option (List Char)
  | .eps, cs, k => k cs
  | .cls p, cs, k =>
    match cs with
    | [] => none
    | c :: rest => if p c then k rest else none
  | .seq a b, cs, k => reMatch a cs (fun cs2 => reMatch b cs2 k)
  | .alt a b, cs, k =>
    match reMatch a cs k with
    | some r => some r
    | none => reMatch b cs k
  | .opt a, cs, k =>
    match reMatch a cs k with
    | some r => some r
    | none => k cs
  | .starCls p, cs, k =>
    repTry k cs 0 (cs.takeWhile p).length
  | .repCls p lo hi, cs, k =>
    let m := (cs.takeWhile p).length
    if m < lo then none else repTry k cs lo (min hi m)

/-- Does `r` match starting at some position of the char list
(Python `re.search` as a boolean)? -/
def reSearchAux (r : RE) : List Char → Bool
  | [] => (reMatch r [] some).isSome
  | c :: rest => (reMatch r (c :: rest) some).isSome || reSearchAux r rest

/-- Python `re.search(pattern, s) is not None`. -/
def reSearch (r : RE) (s : String) : Bool :=
  reSearchAux r s.data

/-- Worker for `reFindall`: scan left to right, each match is consumed
(non-overlapping); a failed position advances by one character.  The fuel
`len + 1` is always sufficient because every step either consumes at least
one character or advances by one. -/
def reFindallAux (r : RE) : Nat → List Char → List (List Char)
  | 0, _ => []
  | _ + 1, [] =>
    match reMatch r [] some with
    | some _ => [[]]
    | none => []
  | fuel + 1, c :: rest =>
    match reMatch r (c :: rest) some with
    | none => reFindallAux r fuel rest
    | some rem =>
      let len := (c :: rest).length - rem.length
      if len = 0 then [] :: reFindallAux r fuel rest
      else (c :: rest).take len :: reFindallAux r fuel rem

/-- Python `re.findall` restricted to whole-match results. -/
def reFindall (r : RE) (s : String) : List String :=
  (reFindallAux r (s.data.length + 1) s.data).map (fun l => String.mk l)

/-- Anchored `re.match(r'^…$', s)`: the whole string must match, where the
`$` anchor also accepts a single trailing newline (CPython semantics). -/
def reFullMatch (r : RE) (s : String) : Bool :=
  (reMatch r s.data (fun rest =>
    if rest = [] || rest = ['\n'] then some rest else none)).isSome

/-- Unanchored-start `re.match`: match must begin at position 0 but may end
anywhere. -/
def reMatchAtStart (r : RE) (s : String) : Bool :=
  (reMatch r s.data some).isSome

/-- Case-insensitive literal (all escalation patterns compile with
`re.IGNORECASE`; case folding here is ASCII). -/
def litCI (s : String) : RE :=
  s.data.foldr (fun c acc => RE.seq (RE.cls (fun x => x.toLower = c.toLower)) acc) RE.eps

/-- Case-sensitive literal. -/
def litCS (s : String) : RE :=
  s.data.foldr (fun c acc => RE.seq (RE.cls (fun x => x = c)) acc) RE.eps

/-- Sequence a list of regex fragments. -/
def seqList (l : List RE) : RE :=
  l.foldr RE.seq RE.eps

/-! ### Escalation engine — `src/pipeline/escalation.py` -/

/-- `ANTI_BOT_MARKERS`, in order: `Just a moment\s*\.\.\.`,
`Enable JavaScript and cookies to continue`, `__cf_chl_`. -/
def ANTI_BOT_MARKERS : List RE :=
  [ seqList [litCI "Just a moment", RE.starCls pySpace, litCI "..."]
  , litCI "Enable JavaScript and cookies to continue"
  , litCI "__cf_chl_" ]

/-- `(e-?mail|email)` group used by several JS markers. -/
def emailWordRE : RE :=
  RE.alt (seqList [litCI "e", RE.opt (RE.cls (fun c => c = '-')), litCI "mail"])
    (litCI "email")

/-- `JS_MARKERS`: each entry pairs the raw Python pattern string (used
verbatim in the emitted `js:<pattern>` reason) with its embedding. -/
def JS_MARKERS : List (String × RE) :=
  [ ("data-cfemail", litCI "data-cfemail")
  , ("cf_email", litCI "cf_email")
  , ("javascript:.*mailto",
      seqList [litCI "javascript:", RE.starCls (fun c => c ≠ '\n'), litCI "mailto"])
  , ("data-email\\s*=", seqList [litCI "data-email", RE.starCls pySpace, litCI "="])
  , ("data-phone\\s*=", seqList [litCI "data-phone", RE.starCls pySpace, litCI "="])
  , ("data-reactroot", litCI "data-reactroot")
  , ("ng-app", litCI "ng-app")
  , ("show\\s*(e-?mail|email)",
      seqList [litCI "show", RE.starCls pySpace, emailWordRE])
  , ("reveal\\s*(e-?mail|email)",
      seqList [litCI "reveal", RE.starCls pySpace, emailWordRE])
  , ("display\\s*(e-?mail|email)",
      seqList [litCI "display", RE.starCls pySpace, emailWordRE])
  , ("показать\\s*(e-?mail|email|почт\\w+)",
      seqList [litCI "показать", RE.starCls pySpace,
        RE.alt emailWordRE (seqList [litCI "почт", RE.cls pyWord, RE.starCls pyWord])])
  , ("открыть\\s*(e-?mail|email|почт\\w+)",
      seqList [litCI "открыть", RE.starCls pySpace,
        RE.alt emailWordRE (seqList [litCI "почт", RE.cls pyWord, RE.starCls pyWord])]) ]

/-- `class\s*=\s*"[^"]*(team|member|profile|person)[^"]*"` (IGNORECASE). -/
def TARGET_CARD_CLASS_RE : RE :=
  seqList
    [ litCI "class", RE.starCls pySpace, RE.cls (fun c => c = '='),
      RE.starCls pySpace, RE.cls (fun c => c = '"'),
      RE.starCls (fun c => c ≠ '"'),
      RE.alt (litCI "team") (RE.alt (litCI "member") (RE.alt (litCI "profile") (litCI "person"))),
      RE.starCls (fun c => c ≠ '"'), RE.cls (fun c => c = '"') ]

/-- `<h[34][^>]*>` (IGNORECASE). -/
def H3_H4_RE : RE :=
  seqList
    [ RE.cls (fun c => c = '<'), RE.cls (fun c => c.toLower = 'h'),
      RE.cls (fun c => c = '3' || c = '4'),
      RE.starCls (fun c => c ≠ '>'), RE.cls (fun c => c = '>') ]

/-- `FetchResult` from `src/pipeline/fetchers/static.py` (immutable). -/
structure FetchResult where
  url : String
  status_code : Int
  mime : Option String
  content_length : Nat
  html : Option String
  headers : List (String × String)
  blocked_by_robots : Bool := false
deriving Repr, DecidableEq

/-- `EscalationDecision` (frozen dataclass). -/
structure EscalationDecision where
  escalate : Bool
  reasons : List String
deriving Repr, DecidableEq

/-- `detect_anti_bot`. -/
def detect_anti_bot (html : Option String) : Bool :=
  if strTruthy html then
    match html with
    | some s => ANTI_BOT_MARKERS.any (fun r => reSearch r s)
    | none => false
  else false

/-- `detect_js_markers`: accumulate a `js:<pattern>` reason for every
matching marker, in list order. -/
def detect_js_markers (html : Option String) : List String :=
  if strTruthy html then
    match html with
    | some s =>
      JS_MARKERS.filterMap (fun pr =>
        if reSearch pr.2 s then some ("js:" ++ pr.1) else none)
    | none => []
  else []

/-- Count of card-class matches on a page (`TARGET_CARD_CLASS_RE.findall`). -/
def cardClassCount (s : String) : Nat :=
  (reFindall TARGET_CARD_CLASS_RE s).length

/-- Count of `<h3…>`/`<h4…>` tags on a page (`H3_H4_RE.findall`). -/
def h34Count (s : String) : Nat :=
  (reFindall H3_H4_RE s).length

/-- `detect_cards_without_contacts`: card-looking blocks without any
`mailto:`/`tel:` anchors. -/
def detect_cards_without_contacts (html : Option String) : Bool :=
  if strTruthy html then
    match html with
    | some s =>
      let low := strLower s
      let has_mailto_or_tel :=
        strContains low "href=\"mailto:" || strContains low "href=\"tel:"
      if has_mailto_or_tel then false
      else if cardClassCount s ≥ 3 then true
      else h34Count s ≥ 8
    | none => false
  else false

/-- Reason string for a MIME mismatch, `f"mime!=text/html ({fetch.mime})"`. -/
def mimeReason (m : String) : String :=
  "mime!=text/html (" ++ m ++ ")"

/-- Reason string for a thin page. -/
def thinReason : String := "selector_hits==0 && content_length<5KiB"

/-- Reason string for anti-bot markers. -/
def antiBotReason : String := "anti-bot markers detected"

/-- Reason string for the repeating-cards heuristic. -/
def cardsReason : String := "cards_present_but_no_mailto_tel"

/-- MIME rule of `decide_escalation`: fires when a MIME type is present and
differs from `text/html` (a `None` MIME is skipped by the
`fetch.mime is not None` guard). -/
def escMimeReasons (mime : Option String) : List String :=
  match mime with
  | some m => if m ≠ "text/html" then [mimeReason m] else []
  | none => []

/-- Thin-page rule: zero selector hits and body under 5 KiB. -/
def escThinReasons (selector_hits content_length : Nat) : List String :=
  if selector_hits = 0 && content_length < 5 * 1024 then [thinReason] else []

/-- Anti-bot rule. -/
def escAntiBotReasons (html : Option String) : List String :=
  if detect_anti_bot html then [antiBotReason] else []

/-- Repeating-cards rule. -/
def escCardsReasons (html : Option String) : List String :=
  if detect_cards_without_contacts html then [cardsReason] else []

/-- `decide_escalation`: accumulate reasons in source order; escalate iff
any reason fired. -/
def decide_escalation (fetch : FetchResult) (selector_hits : Nat) : EscalationDecision :=
  let reasons :=
    escMimeReasons fetch.mime ++ escThinReasons selector_hits fetch.content_length ++
      escAntiBotReasons fetch.html ++ detect_js_markers fetch.html ++
      escCardsReasons fetch.html
  { escalate := decide (0 < reasons.length), reasons := reasons }

/-- C3 input where the claim fails: a response with no MIME header at all
(`mime=None`), large body, nonzero selector hits, no HTML captured. -/
def fetchMimeNone : FetchResult :=
  { url := "https://example.com/app", status_code := 200, mime := none,
    content_length := 10000, html := none, headers := [], blocked_by_robots := false }

/-- A fetch with a non-HTML MIME type (C3 witness input). -/
def fetchJson : FetchResult :=
  { url := "https://example.com/api", status_code := 200, mime := some "application/json",
    content_length := 10000, html := none, headers := [], blocked_by_robots := false }

/-- C9 input: eight `<h3>` fragments, zero card-class matches, no
`mailto:`/`tel:` anchors. -/
def htmlH8 : String := "<h3><h3><h3><h3><h3><h3><h3><h3>"

/-- C9 fetch around `htmlH8`. -/
def fetchH8 : FetchResult :=
  { url := "https://example.com/team", status_code := 200, mime := some "text/html",
    content_length := 10000, html := some htmlH8, headers := [], blocked_by_robots := false }

/-! ### Domain budget tracker — `src/pipeline/ingest.py`, `DomainTracker` -/

/-- Per-domain fetch counters (`{"static": N, "headless": N}`). -/
structure DomainStats where
  static : Nat := 0
  headless : Nat := 0
deriving Repr, DecidableEq

/-- `DomainTracker` state: the percentage cap and the per-domain stats map
(ordered association list standing in for the Python dict). -/
structure DomainTracker where
  max_headless_pct : ℚ
  domain_stats : List (String × DomainStats)
deriving Repr, DecidableEq

/-- Default `max_headless_pct`.  The Python default is the float literal
`0.2`; the embedding uses real-number (rational) arithmetic, under which the
ratio comparisons performed by the tracker agree with the float code on all
counter values reachable in a run. -/
def maxHeadlessPctDefault : ℚ := 1 / 5

/-- One `record_fetch` counter bump. -/
def bumpStats (s : DomainStats) (method : String) : DomainStats :=
  if method = "playwright" then { s with headless := s.headless + 1 }
  else { s with static := s.static + 1 }

/-- Dict update for `record_fetch`: create the entry on first sight, then
bump the counter for `method`. -/
def updStats : List (String × DomainStats) → String → String → List (String × DomainStats)
  | [], domain, method => [(domain, bumpStats {} method)]
  | (d, s) :: rest, domain, method =>
    if d = domain then (d, bumpStats s method) :: rest
    else (d, s) :: updStats rest domain method

/-- `DomainTracker.record_fetch`. -/
def DomainTracker.record_fetch (t : DomainTracker) (domain method : String) : DomainTracker :=
  { t with domain_stats := updStats t.domain_stats domain method }

/-- Dict lookup with the `{"static": 0, "headless": 0}` default. -/
def statsFor (l : List (String × DomainStats)) (domain : String) : DomainStats :=
  match l.find? (fun e => e.1 = domain) with
  | some e => e.2
  | none => {}

/-- `DomainTracker.can_use_headless`: always true for an unseen domain,
otherwise the recorded headless share must be strictly below the cap. -/
def DomainTracker.can_use_headless (t : DomainTracker) (domain : String) : Bool :=
  let stats := statsFor t.domain_stats domain
  let total := stats.static + stats.headless
  if total = 0 then true
  else decide ((stats.headless : ℚ) / (total : ℚ) < t.max_headless_pct)

/-- A fresh default tracker after recording 4 static fetches and then one
playwright fetch for domain `"example.com"` (the claim's 20% scenario). -/
def trackerAfter4s1h : DomainTracker :=
  (((((({ max_headless_pct := maxHeadlessPctDefault, domain_stats := [] } :
      DomainTracker).record_fetch "example.com" "static").record_fetch
      "example.com" "static").record_fetch "example.com" "static").record_fetch
      "example.com" "static").record_fetch "example.com" "playwright")

/-! ### Cross-domain email acceptance — `src/pipeline/extractors.py` -/

/-- `_XDOM_THRESHOLD` ("moderate threshold"). -/
def XDOM_THRESHOLD : Int := 5

/-- `_XDOM_W` weights, one constant per dict entry. -/
def xdomW_in_person_card : Int := 0

def xdomW_has_title : Int := 1

def xdomW_mailto : Int := 2

def xdomW_has_phone : Int := 2

def xdomW_has_vcard : Int := 2

def xdomW_show_email_trigger : Int := 1

def xdomW_domain_repeat_2plus : Int := 1

def xdomW_domain_repeat_3plus : Int := 2

def xdomW_domain_in_footer : Int := 2

def xdomW_site_repeat_3plus : Int := 1

def xdomW_site_repeat_5plus : Int := 2

def xdomW_negative_zone : Int := -2

/-- The boolean/count signals handed to `_xdom_score_static` for one email
candidate (computed from the card and page context in the source). -/
structure XdomSignals where
  in_person_card : Bool
  has_title : Bool
  from_mailto : Bool
  has_phone : Bool
  has_vcard : Bool
  has_show_trigger : Bool
  page_domain_count : Nat
  site_domain_count : Nat
  domain_in_footer : Bool
  negative_zone : Bool
deriving Repr, DecidableEq

/-- `_xdom_score_static`: weighted sum (the accompanying signal-name list is
dropped here; it is log-only).  The `in_person_card` term mirrors the code's
`if in_person_card and self._XDOM_W['in_person_card']`, where the weight `0`
is falsy. -/
def xdomScoreStatic (g : XdomSignals) : Int :=
  (if g.in_person_card && !(xdomW_in_person_card = 0) then xdomW_in_person_card else 0) +
  (if g.has_title then xdomW_has_title else 0) +
  (if g.from_mailto then xdomW_mailto else 0) +
  (if g.has_phone then xdomW_has_phone else 0) +
  (if g.has_vcard then xdomW_has_vcard else 0) +
  (if g.has_show_trigger then xdomW_show_email_trigger else 0) +
  (if g.page_domain_count ≥ 3 then xdomW_domain_repeat_3plus
   else if g.page_domain_count ≥ 2 then xdomW_domain_repeat_2plus else 0) +
  (if g.site_domain_count ≥ 5 then xdomW_site_repeat_5plus
   else if g.site_domain_count ≥ 3 then xdomW_site_repeat_3plus else 0) +
  (if g.domain_in_footer then xdomW_domain_in_footer else 0) +
  (if g.negative_zone then xdomW_negative_zone else 0)

/-- `_xdom_min_confirmation`'s `ok` component (the list of missing signals
it also returns is log-only). -/
def xdom_min_confirmation_ok (has_phone has_vcard : Bool) (page_repeat : Nat)
    (in_footer : Bool) (site_repeat : Nat) : Bool :=
  has_phone || has_vcard || decide (page_repeat ≥ 2) || in_footer ||
    decide (site_repeat ≥ 3)

/-- Acceptance decision for one email candidate in
`_extract_person_contacts_static` (the `accept` flag).  `brandMatch`
abstracts `same_domain or self._email_domain_matches_site(...)` and `freeOk`
abstracts the env-gated free-mail allowance; the cross-domain branch runs
only when both are false, exactly as in the source. -/
def emailAcceptStatic (brandMatch freeOk : Bool) (g : XdomSignals) : Bool :=
  if brandMatch || freeOk then true
  else if xdomScoreStatic g ≥ XDOM_THRESHOLD then
    xdom_min_confirmation_ok g.has_phone g.has_vcard g.page_domain_count
      g.domain_in_footer g.site_domain_count
  else false

/-! ### Data model — `src/schemas.py` -/

/-- `ContactType` enum. -/
inductive ContactType where
  | email : ContactType
  | phone : ContactType
  | link : ContactType
deriving Repr, DecidableEq

/-- The `.value` string of a `ContactType`. -/
def ContactType.value : ContactType → String
  | .email => "email"
  | .phone => "phone"
  | .link => "link"

/-- `VerificationStatus` enum. -/
inductive VerificationStatus where
  | VERIFIED : VerificationStatus
  | UNVERIFIED : VerificationStatus
deriving Repr, DecidableEq

/-- `Evidence`: the seven mandatory fields (the timestamp is an abstract
tick count; the screenshot field is called `dom_node_screenshot` in the
code). -/
structure Evidence where
  source_url : String
  selector_or_xpath : String
  verbatim_quote : String
  dom_node_screenshot : String
  timestamp : Nat
  parser_version : String
  content_hash : String
deriving Repr, DecidableEq

/-- `Contact`: the validated record. -/
structure Contact where
  company : String
  person_name : String
  role_title : String
  contact_type : ContactType
  contact_value : String
  evidence : Evidence
  captured_at : Nat
  verification_status : VerificationStatus
deriving Repr, DecidableEq

/-- Python `str.startswith` for a single prefix. -/
def strStartsWith (s pre : String) : Bool :=
  pre.data.isPrefixOf s.data

/-- Python `str.strip()` (ASCII whitespace). -/
def pyStrip (s : String) : String :=
  String.mk (((s.data.dropWhile pySpace).reverse.dropWhile pySpace).reverse)

/-- `p+` as a regex fragment: one mandatory occurrence then a greedy star. -/
def plusCls (p : Char → Bool) : RE :=
  RE.seq (RE.cls p) (RE.starCls p)

/-- `^[a-f0-9]{64}$` (checked against the lowercased hash). -/
def hash64RE : RE :=
  RE.repCls (fun c => (('a' ≤ c && c ≤ 'f') || c.isDigit)) 64 64

/-- `^\d+\.\d+\.\d+(-[a-zA-Z0-9]+)?$`. -/
def semverRE : RE :=
  seqList
    [ plusCls pyDigit, RE.cls (fun c => c = '.'), plusCls pyDigit,
      RE.cls (fun c => c = '.'), plusCls pyDigit,
      RE.opt (RE.seq (RE.cls (fun c => c = '-')) (plusCls Char.isAlphanum)) ]

/-- `^[^@]+@[^@]+\.[^@]+$` (contact e-mail check in `model_post_init`). -/
def emailFormatRE : RE :=
  seqList
    [ plusCls (fun c => c ≠ '@'), RE.cls (fun c => c = '@'),
      plusCls (fun c => c ≠ '@'), RE.cls (fun c => c = '.'),
      plusCls (fun c => c ≠ '@') ]

/-- Characters removed by the phone cleaner `re.sub(r'[\s\-\(\)\+\.]', '', v)`. -/
def phoneStripChar (c : Char) : Bool :=
  pySpace c || c = '-' || c = '(' || c = ')' || c = '+' || c = '.'

/-- The cleaned phone value. -/
def phoneClean (v : String) : String :=
  String.mk (v.data.filter (fun c => !phoneStripChar c))

/-- `^\d{7,15}$` for cleaned phone values. -/
def phoneDigits7to15RE : RE :=
  RE.repCls pyDigit 7 15

/-- `mkEvidence`: the `Evidence` pydantic constructor with its three field
validators (URL scheme, 64-hex hash — stored lowercased — and semver
parser version). -/
def mkEvidence (source_url selector_or_xpath verbatim_quote dom_node_screenshot : String)
    (timestamp : Nat) (parser_version content_hash : String) : Except String Evidence :=
  if !(strStartsWith source_url "http://" || strStartsWith source_url "https://") then
    .error "source_url must be a valid HTTP/HTTPS URL"
  else if !(reFullMatch hash64RE (strLower content_hash)) then
    .error "content_hash must be a valid SHA-256 hash (64 hex chars)"
  else if !(reFullMatch semverRE parser_version) then
    .error "parser_version must follow semantic versioning"
  else
    .ok { source_url := source_url, selector_or_xpath := selector_or_xpath,
          verbatim_quote := verbatim_quote, dom_node_screenshot := dom_node_screenshot,
          timestamp := timestamp, parser_version := parser_version,
          content_hash := strLower content_hash }

/-- The `model_post_init` syntax check of a contact value against its type. -/
def contactValueOK (ty : ContactType) (v : String) : Bool :=
  match ty with
  | .email => reFullMatch emailFormatRE v
  | .phone => reFullMatch phoneDigits7to15RE (phoneClean v)
  | .link => strStartsWith v "http://" || strStartsWith v "https://"

/-- The error message raised when the value check fails. -/
def contactValueError (ty : ContactType) : String :=
  match ty with
  | .email => "Invalid email format"
  | .phone => "Invalid phone format"
  | .link => "Links must start with http:// or https://"

/-- `mkContact`: the `Contact` pydantic constructor.  Field validators
reject blank `company`/`person_name` (and store them stripped);
`model_post_init` validates `contact_value` against the `contact_type` and
then derives `verification_status` from the evidence: since `evidence` is a
mandatory field and a pydantic model instance is always truthy, the stored
status is `VERIFIED` regardless of the status passed by the caller. -/
def mkContact (company person_name role_title : String) (contact_type : ContactType)
    (contact_value : String) (evidence : Evidence) (captured_at : Nat)
    (verification_status : VerificationStatus) : Except String Contact :=
  if (pyStrip company).isEmpty then .error "Field cannot be empty"
  else if (pyStrip person_name).isEmpty then .error "Field cannot be empty"
  else if !(contactValueOK contact_type contact_value) then
    .error (contactValueError contact_type)
  else
    .ok { company := pyStrip company, person_name := pyStrip person_name,
          role_title := role_title, contact_type := contact_type,
          contact_value := contact_value, evidence := evidence,
          captured_at := captured_at,
          verification_status := VerificationStatus.VERIFIED }

/-! ### Free-text phone acceptance — `_extract_person_contacts_static` -/

/-- `[-\s]` separator class of the phone pattern. -/
def phoneSep (c : Char) : Bool :=
  c = '-' || pySpace c

/-- First alternative of `phone_pattern`:
`(?:\+?1[-\s]?)?\(?\d{3}\)?[-\s]?\d{3}[-\s]?\d{4}`. -/
def phonePatternNanp : RE :=
  seqList
    [ RE.opt (seqList [RE.opt (RE.cls (fun c => c = '+')), litCS "1",
        RE.opt (RE.cls phoneSep)])
    , RE.opt (RE.cls (fun c => c = '(')), RE.repCls pyDigit 3 3
    , RE.opt (RE.cls (fun c => c = ')')), RE.opt (RE.cls phoneSep)
    , RE.repCls pyDigit 3 3, RE.opt (RE.cls phoneSep), RE.repCls pyDigit 4 4 ]

/-- Second alternative of `phone_pattern`:
`\+?\d{1,3}[-\s]?\(?\d{1,4}\)?[-\s]?\d{1,4}[-\s]?\d{1,9}`. -/
def phonePatternIntl : RE :=
  seqList
    [ RE.opt (RE.cls (fun c => c = '+')), RE.repCls pyDigit 1 3
    , RE.opt (RE.cls phoneSep), RE.opt (RE.cls (fun c => c = '('))
    , RE.repCls pyDigit 1 4, RE.opt (RE.cls (fun c => c = ')'))
    , RE.opt (RE.cls phoneSep), RE.repCls pyDigit 1 4
    , RE.opt (RE.cls phoneSep), RE.repCls pyDigit 1 9 ]

/-- `self.phone_pattern` (no capture groups, so `findall` yields whole
matches). -/
def phone_pattern : RE :=
  RE.alt phonePatternNanp phonePatternIntl

/-- `re.sub(r"\D", "", raw)`. -/
def digitsOnly (s : String) : String :=
  String.mk (s.data.filter Char.isDigit)

/-- `^(19|20)\d{6,8}$` — the date-like digit filter. -/
def dateLikeRE : RE :=
  RE.seq (RE.alt (litCS "19") (litCS "20")) (RE.repCls pyDigit 6 8)

/-- `re.match(r'^(19|20)\d{6,8}$', num) is not None`. -/
def dateLike (num : String) : Bool :=
  reFullMatch dateLikeRE num

/-- The free-text phone loop of `_extract_person_contacts_static`
(lines 795–803): walk the `findall` matches in order; skip a match whose
digit form is empty, shorter than 10 or longer than 15 digits, or
date-like; take the first survivor (`break`). -/
def textPhoneLoop : List String → Option (String × String)
  | [] => none
  | raw :: rest =>
    if (digitsOnly raw).isEmpty || (digitsOnly raw).length < 10 ||
        15 < (digitsOnly raw).length then
      textPhoneLoop rest
    else if dateLike (digitsOnly raw) then textPhoneLoop rest
    else some (digitsOnly raw, raw)

/-- The first accepted free-text phone of a card's text block. -/
def textPhoneFirst (text_block : String) : Option (String × String) :=
  textPhoneLoop (reFindall phone_pattern text_block)

/-- Contact emission for the accepted free-text phone candidate
(lines 805–826): the digits become the contact value; a `Contact`
construction failure is swallowed by the `try/except` and drops the
candidate. -/
def emitTextPhoneContacts (company person role : String) (ev : Evidence)
    (ts : Nat) (cand : Option (String × String)) : List Contact :=
  match cand with
  | none => []
  | some (num, _raw) =>
    match mkContact company person role ContactType.phone num ev ts
        VerificationStatus.UNVERIFIED with
    | .ok c => [c]
    | .error _ => []

/-- Modelled from the spec: the contextual marker-word test
("phone"/"tel"/localized equivalents near the number) that §4.5 step 6 of
the spec requires for free-text phones.  The extractor source contains no
such test; this definition exists only to state the refutation. -/
def specPhoneMarkerNearby (s : String) : Bool :=
  strContains (strLower s) "phone" || strContains (strLower s) "tel" ||
    strContains (strLower s) "телефон"

/-- Card text with a valid free-text phone and no marker word anywhere. -/
def textNoMarker : String := "Call me: 617-555-1234"

/-! ### Export layer — `src/pipeline/export.py` -/

/-- Split a char list at the first occurrence of `pat`, dropping `pat`
itself; `none` when `pat` does not occur. -/
def splitOnSub : List Char → List Char → Option (List Char × List Char)
  | [], pat => if pat.isEmpty then some ([], []) else none
  | c :: rest, pat =>
    if pat.isPrefixOf (c :: rest) then some ([], (c :: rest).drop pat.length)
    else
      match splitOnSub rest pat with
      | some pr => some (c :: pr.1, pr.2)
      | none => none

/-- Split a char list at the first character satisfying `p` (the splitting
character goes with neither side… it heads the second component). -/
def splitAtFirst (p : Char → Bool) (l : List Char) : List Char × List Char :=
  (l.takeWhile (fun c => !p c), l.dropWhile (fun c => !p c))

/-- The five `urlsplit` components. -/
structure UrlParts where
  scheme : String
  netloc : String
  path : String
  query : String
  fragment : String
deriving Repr, DecidableEq

/-- Simplified `urllib.parse.urlsplit` for the absolute http(s)-style URLs
this pipeline handles: scheme before `://`, netloc up to the first `/`,
`?` or `#`, then path, `?query`, `#fragment`. -/
def urlsplitLite (u : String) : UrlParts :=
  let (beforeFrag, fragPart) := splitAtFirst (fun c => c = '#') u.data
  let frag := fragPart.drop 1
  let (beforeQ, qPart) := splitAtFirst (fun c => c = '?') beforeFrag
  let q := qPart.drop 1
  match splitOnSub beforeQ "://".data with
  | some (sch, rest) =>
    let (nl, pathPart) := splitAtFirst (fun c => c = '/') rest
    { scheme := String.mk sch, netloc := String.mk nl, path := String.mk pathPart,
      query := String.mk q, fragment := String.mk frag }
  | none =>
    { scheme := "", netloc := "", path := String.mk beforeQ,
      query := String.mk q, fragment := String.mk frag }

/-- `urlunsplit` counterpart of `urlsplitLite`. -/
def urlunsplitLite (p : UrlParts) : String :=
  (if p.scheme.isEmpty then "" else p.scheme ++ ":") ++
    (if p.netloc.isEmpty then "" else "//" ++ p.netloc) ++ p.path ++
    (if p.query.isEmpty then "" else "?" ++ p.query) ++
    (if p.fragment.isEmpty then "" else "#" ++ p.fragment)

/-- Python `str.endswith` for a single suffix. -/
def strEndsWith (s suf : String) : Bool :=
  suf.data.isSuffixOf s.data

/-- `path.rstrip('/')`. -/
def rstripSlash (s : String) : String :=
  String.mk ((s.data.reverse.dropWhile (fun c => c = '/')).reverse)

/-- `normalize_url_for_report`: lowercase the host, strip a leading `www.`,
drop query and fragment, trim trailing slashes except for the root path. -/
def normalize_url_for_report (u : String) : String :=
  let sp := urlsplitLite u
  let netloc := strLower sp.netloc
  let netloc2 := if strStartsWith netloc "www." then String.mk (netloc.data.drop 4) else netloc
  let path := if strEndsWith sp.path "/" && sp.path ≠ "/" then rstripSlash sp.path else sp.path
  urlunsplitLite
    { scheme := sp.scheme, netloc := netloc2, path := path, query := "", fragment := "" }

/-- `','` and `'.'` become spaces (the two `replace` calls of
`normalize_person_name`). -/
def punctToSpace (s : String) : String :=
  String.mk (s.data.map (fun c => if c = ',' then ' ' else if c = '.' then ' ' else c))

/-- The whitespace-separated words of a string.  Joining them with single
spaces is exactly `re.sub(r"\s+", " ", s).strip()` (each maximal
whitespace run becomes one space, then the outer spaces are stripped). -/
def pyWsWords (s : String) : List String :=
  ((s.data.splitOnP pySpace).filter (fun w => !w.isEmpty)).map String.mk

/-- `normalize_person_name`: lowercase, commas/periods to spaces, collapse
whitespace, trim. -/
def normalize_person_name (s : String) : String :=
  if s.isEmpty then ""
  else String.intercalate " " (pyWsWords (punctToSpace (strLower s)))

/-- The token decomposition that `normalize_person_name` joins: maximal
runs separated by commas, periods or whitespace, lowercased. -/
def namePunctTokens (s : String) : List String :=
  pyWsWords (punctToSpace (strLower s))

/-- `_norm_key`: the export dedup key. -/
def export_norm_key (c : Contact) : String × String × String × String :=
  ( strLower (pyStrip c.company)
  , normalize_person_name c.person_name
  , c.contact_type.value
  , match c.contact_type with
    | .email => strLower (pyStrip c.contact_value)
    | .phone => digitsOnly c.contact_value
    | .link => strLower (pyStrip c.contact_value) )

/-- Anchor-origin test of `_quality_tuple`: the (lowercased) evidence
selector contains `a[href*='mailto:']` or `a[href*='tel:']`. -/
def isAnchorSelector (sel : String) : Bool :=
  strContains sel "a[href*=\x27mailto:\x27]" || strContains sel "a[href*=\x27tel:\x27]"

/-- Semantic-path test: the lowercased URL contains `/leadership`,
`/our-team` or `/team`. -/
def isSemanticUrl (u : String) : Bool :=
  strContains (strLower u) "/leadership" || strContains (strLower u) "/our-team" ||
    strContains (strLower u) "/team"

/-- Known-role test: the title is non-blank and not `unknown`. -/
def roleGoodQ (role : String) : Bool :=
  !role.isEmpty && !(strLower (pyStrip role) = "unknown")

/-- `_quality_tuple`: (anchor, semantic, role-known, −|canonical URL|,
captured-at), compared lexicographically.  `evidence` is a mandatory field
of the embedded `Contact`, so the `if c.evidence` guards of the source are
always taken. -/
def quality_tuple (c : Contact) : Nat × Nat × Nat × Int × Nat :=
  ( if isAnchorSelector (strLower c.evidence.selector_or_xpath) then 1 else 0
  , if isSemanticUrl c.evidence.source_url then 1 else 0
  , if roleGoodQ c.role_title then 1 else 0
  , -(Int.ofNat (normalize_url_for_report c.evidence.source_url).length)
  , c.captured_at )

/-- Python tuple `>` on the 5-component quality tuples (lexicographic). -/
def qtGT (a b : Nat × Nat × Nat × Int × Nat) : Bool :=
  if a.1 ≠ b.1 then decide (b.1 < a.1)
  else if a.2.1 ≠ b.2.1 then decide (b.2.1 < a.2.1)
  else if a.2.2.1 ≠ b.2.2.1 then decide (b.2.2.1 < a.2.2.1)
  else if a.2.2.2.1 ≠ b.2.2.2.1 then decide (b.2.2.2.1 < a.2.2.2.1)
  else decide (b.2.2.2.2 < a.2.2.2.2)

/-- Ordered-dict upsert: first insertion keeps its position; a later
contact replaces the stored one only when `better` says so. -/
def upsertWith {K : Type} [DecidableEq K] (k : K) (c : Contact)
    (better : Contact → Contact → Bool) :
    List (K × Contact) → List (K × Contact)
  | [] => [(k, c)]
  | (k2, c2) :: rest =>
    if k2 = k then
      (if better c c2 then (k2, c) :: rest else (k2, c2) :: rest)
    else (k2, c2) :: upsertWith k c better rest

/-- `dedupe_contacts_for_export`: keep, per normalized
(company, person, type, value) key, the quality-maximal instance, in first
insertion order. -/
def dedupe_contacts_for_export (contacts : List Contact) : List Contact :=
  if contacts.isEmpty then []
  else
    (contacts.foldl
      (fun m c =>
        upsertWith (export_norm_key c) c
          (fun a b => qtGT (quality_tuple a) (quality_tuple b)) m)
      []).map Prod.snd

/-- `NON_PERSON_PHRASES` (a Python set; only membership is used). -/
def NON_PERSON_PHRASES : List String :=
  [ "mailing address", "click here", "branch hours", "business services team"
  , "executive team", "support", "department", "services", "contact us", "resources" ]

/-- A contact is dropped before consolidation when any non-person phrase
occurs in its stripped, lowercased person name. -/
def isNonPersonName (person : String) : Bool :=
  NON_PERSON_PHRASES.any (fun ph => strContains (strLower (pyStrip person)) ph)

/-- setdefault-append grouping step for `by_person`. -/
def groupUpd (k : String × String) (c : Contact) :
    List ((String × String) × List Contact) → List ((String × String) × List Contact)
  | [] => [(k, [c])]
  | (k2, l) :: rest =>
    if k2 = k then (k2, l ++ [c]) :: rest
    else (k2, l) :: groupUpd k c rest

/-- `by_person`: group the filtered contacts by
(normalized company, normalized person), in first-seen order. -/
def groupByPerson (contacts : List Contact) : List ((String × String) × List Contact) :=
  contacts.foldl
    (fun m c =>
      groupUpd (strLower (pyStrip c.company), normalize_person_name c.person_name) c m)
    []

/-- `[a-z]` class. -/
def latinLower (c : Char) : Bool :=
  'a' ≤ c && c ≤ 'z'

/-- `_name_tokens_latin`: `re.findall(r"[a-z]{3,}", name.lower())`. -/
def nameTokensLatin (name : String) : List String :=
  reFindall (RE.seq (RE.repCls latinLower 3 3) (RE.starCls latinLower)) (strLower name)

/-- `_local_matches_name`. -/
def localMatchesName (loc : String) (tokens : List String) : Nat :=
  if tokens.any (fun t => strContains (strLower loc) t) then 1 else 0

/-- The e-mail local part, `value.split('@')[0].lower()`. -/
def localPart (v : String) : String :=
  strLower (String.mk (v.data.takeWhile (fun c => c ≠ '@')))

/-- `_is_semantic_url` as the 0/1 rank used in scores. -/
def semanticRank (u : String) : Nat :=
  if isSemanticUrl u then 1 else 0

/-- `_is_anchor_selector sel want` on an already-lowercased selector. -/
def anchorRank (sel want : String) : Nat :=
  if strContains sel want then 1 else 0

/-- `_is_toll_free`: 0 for 800/888/877/866 numbers, else 1 (non-toll-free
preferred). -/
def tollFreeRank (num : String) : Nat :=
  if strStartsWith (digitsOnly num) "800" || strStartsWith (digitsOnly num) "888" ||
      strStartsWith (digitsOnly num) "877" || strStartsWith (digitsOnly num) "866" then 0
  else 1

/-- Strict `>` on the 4-component rank tuples (Python tuple comparison). -/
def r4GT (a b : Nat × Nat × Nat × Nat) : Bool :=
  if a.1 ≠ b.1 then decide (b.1 < a.1)
  else if a.2.1 ≠ b.2.1 then decide (b.2.1 < a.2.1)
  else if a.2.2.1 ≠ b.2.2.1 then decide (b.2.2.1 < a.2.2.1)
  else decide (b.2.2.2 < a.2.2.2)

/-- Strict `>` on 2-component rank tuples. -/
def r2GT (a b : Nat × Nat) : Bool :=
  if a.1 ≠ b.1 then decide (b.1 < a.1) else decide (b.2 < a.2)

/-- "first wins, later strictly-better replaces" selection loop. -/
def pickBest {S : Type} (score : Contact → S) (sGT : S → S → Bool)
    (l : List Contact) : Option Contact :=
  (l.foldl
    (fun acc c =>
      match acc with
      | none => some (c, score c)
      | some bs => if sGT (score c) bs.2 then some (c, score c) else acc)
    none).map Prod.fst

/-- E-mail ranking of `consolidate_per_person`:
(anchor, semantic URL, local-part/name overlap, recency). -/
def emailScore (tokens : List String) (c : Contact) : Nat × Nat × Nat × Nat :=
  ( anchorRank (strLower c.evidence.selector_or_xpath) "a[href*=\x27mailto:\x27]"
  , semanticRank c.evidence.source_url
  , localMatchesName (localPart c.contact_value) tokens
  , c.captured_at )

/-- Phone ranking: (anchor, semantic URL, non-toll-free, recency). -/
def phoneScore (c : Contact) : Nat × Nat × Nat × Nat :=
  ( anchorRank (strLower c.evidence.selector_or_xpath) "a[href*=\x27tel:\x27]"
  , semanticRank c.evidence.source_url
  , tollFreeRank c.contact_value
  , c.captured_at )

/-- vCard ranking: (semantic URL, recency). -/
def vcardScore (c : Contact) : Nat × Nat :=
  (semanticRank c.evidence.source_url, c.captured_at)

/-- `_best_role_for_person`: prefer known over `Unknown`, then longer. -/
def bestRoleForPerson (l : List Contact) : String :=
  (l.foldl
    (fun (acc : String × (Int × Nat)) c =>
      let rt := pyStrip c.role_title
      let sc : Int × Nat :=
        ((if !rt.isEmpty && !(strLower rt = "unknown") then 1 else 0), rt.length)
      if (if sc.1 ≠ acc.2.1 then decide (acc.2.1 < sc.1) else decide (acc.2.2 < sc.2)) then
        ((if rt.isEmpty then "Unknown" else rt), sc)
      else acc)
    ("Unknown", (-1, 0))).1

/-- One consolidated person row. -/
structure PersonRow where
  company : String
  person_name : String
  role_title : String
  email : String
  phone : String
  vcard : String
  source_url_email : String
  source_url_phone : String
  source_url_vcard : String
deriving Repr, DecidableEq

/-- The best-phone pick: anchor candidates are ranked when any exist,
otherwise digit-validated text candidates are ranked. -/
def pickBestPhone (clist : List Contact) : Option Contact :=
  let phones := clist.filter (fun c => c.contact_type.value = "phone")
  let anchors :=
    phones.filter (fun c =>
      anchorRank (strLower c.evidence.selector_or_xpath) "a[href*=\x27tel:\x27]" = 1)
  let texts :=
    phones.filter (fun c =>
      !(anchorRank (strLower c.evidence.selector_or_xpath) "a[href*=\x27tel:\x27]" = 1))
  if !anchors.isEmpty then pickBest phoneScore r4GT anchors
  else
    pickBest phoneScore r4GT
      (texts.filter (fun c =>
        10 ≤ (digitsOnly c.contact_value).length ∧
          (digitsOnly c.contact_value).length ≤ 15 ∧
          !(dateLike (digitsOnly c.contact_value))))

/-- Output-phone normalization of a chosen phone contact: for anchor picks
prefer the digits of the verbatim quote when they validate, then strip a
leading `1` from 11-digit NANP numbers. -/
def outPhone (pb : Option Contact) : String :=
  match pb with
  | none => ""
  | some c =>
    let cand :=
      if anchorRank (strLower c.evidence.selector_or_xpath) "a[href*=\x27tel:\x27]" = 1 then
        (if 10 ≤ (digitsOnly c.evidence.verbatim_quote).length ∧
            (digitsOnly c.evidence.verbatim_quote).length ≤ 15 ∧
            !(dateLike (digitsOnly c.evidence.verbatim_quote)) then
          digitsOnly c.evidence.verbatim_quote
        else digitsOnly c.contact_value)
      else digitsOnly c.contact_value
    if cand.length = 11 && strStartsWith cand "1" then String.mk (cand.data.drop 1)
    else cand

/-- Build the row for one `(company, person)` group. -/
def consolidateRow (clist : List Contact) : PersonRow :=
  let companyDisp := (clist.headD
    { company := "", person_name := "", role_title := "",
      contact_type := ContactType.link, contact_value := "",
      evidence := { source_url := "", selector_or_xpath := "", verbatim_quote := "",
                    dom_node_screenshot := "", timestamp := 0, parser_version := "",
                    content_hash := "" },
      captured_at := 0, verification_status := VerificationStatus.UNVERIFIED }).company
  let personDisp := (clist.headD
    { company := "", person_name := "", role_title := "",
      contact_type := ContactType.link, contact_value := "",
      evidence := { source_url := "", selector_or_xpath := "", verbatim_quote := "",
                    dom_node_screenshot := "", timestamp := 0, parser_version := "",
                    content_hash := "" },
      captured_at := 0, verification_status := VerificationStatus.UNVERIFIED }).person_name
  let tokens := nameTokensLatin personDisp
  let emailBest :=
    pickBest (emailScore tokens) r4GT
      (clist.filter (fun c => c.contact_type.value = "email"))
  let phoneBest := pickBestPhone clist
  let vcardBest :=
    pickBest vcardScore r2GT
      (clist.filter (fun c =>
        c.contact_type.value = "link" && strEndsWith (strLower c.contact_value) ".vcf"))
  let roleFinal := bestRoleForPerson clist
  { company := companyDisp
  , person_name := personDisp
  , role_title := if roleFinal.isEmpty then "Unknown" else roleFinal
  , email := (emailBest.map (fun c => c.contact_value)).getD ""
  , phone := outPhone phoneBest
  , vcard := (vcardBest.map (fun c => c.contact_value)).getD ""
  , source_url_email :=
      (emailBest.map (fun c => normalize_url_for_report c.evidence.source_url)).getD ""
  , source_url_phone :=
      (phoneBest.map (fun c => normalize_url_for_report c.evidence.source_url)).getD ""
  , source_url_vcard :=
      (vcardBest.map (fun c => normalize_url_for_report c.evidence.source_url)).getD "" }

/-- `consolidate_per_person`: filter out non-person names, group by
normalized (company, person), and emit one row per group. -/
def consolidate_per_person (contacts : List Contact) : List PersonRow :=
  if contacts.isEmpty then []
  else
    let filtered := contacts.filter (fun c => !isNonPersonName c.person_name)
    if filtered.isEmpty then []
    else (groupByPerson filtered).map (fun kv => consolidateRow kv.2)

/-! ### Extractor post-processing — `_postprocess_and_dedup` -/

/-- `norm_company`/`norm_person` of `_postprocess_and_dedup`:
`(s or '').strip().lower()`. -/
def ppNorm (s : String) : String :=
  strLower (pyStrip s)

/-- `norm_value`: e-mails and links strip+lowercase, phones keep digits. -/
def ppNormValue (c : Contact) : String :=
  match c.contact_type with
  | .email => strLower (pyStrip c.contact_value)
  | .phone => digitsOnly c.contact_value
  | .link => strLower (pyStrip c.contact_value)

/-- The four-component dedup key of `_postprocess_and_dedup`. -/
def ppKey (c : Contact) : String × String × String × String :=
  (ppNorm c.company, ppNorm c.person_name, c.contact_type.value, ppNormValue c)

/-- The per-person grouping pair (first two key components). -/
def ppPair (c : Contact) : String × String :=
  (ppNorm c.company, ppNorm c.person_name)

/-- `anchor_pref` of the extractor-side `quality`: the lowercased selector
mentions a `mailto:`/`tel:` anchor. -/
def ppAnchorPref (c : Contact) : Nat :=
  let sel := strLower c.evidence.selector_or_xpath
  if strContains sel "mailto:" || strContains sel "a[href*=\x27mailto:\x27]" ||
      strContains sel "tel:" || strContains sel "a[href*=\x27tel:\x27]" then 1
  else 0

/-- `role_good` of the extractor-side `quality`. -/
def ppRoleGood (c : Contact) : Nat :=
  if !c.role_title.isEmpty && !(strLower (pyStrip c.role_title) = "unknown") then 1
  else 0

/-- The extractor-side quality pair (anchor-sourced first, known-role
second). -/
def ppQuality (c : Contact) : Nat × Nat :=
  (ppAnchorPref c, ppRoleGood c)

/-- `quality(c) > quality(prev)` of the post-processing step. -/
def ppBetter (a b : Contact) : Bool :=
  r2GT (ppQuality a) (ppQuality b)

/-- `best_by_key`: ordered-dict fold keeping the quality-maximal contact
per full key. -/
def ppStage1 (contacts : List Contact) : List ((String × String × String × String) × Contact) :=
  contacts.foldl (fun m c => upsertWith (ppKey c) c ppBetter m) []

/-- The per-person chosen slots (`chosen[kp]` dict with keys
`'email'`/`'phone'`). -/
structure ChosenPair where
  email : Option Contact := none
  phone : Option Contact := none
deriving Repr, DecidableEq

/-- Slot update inside one person's chosen pair: take the slot of `ctype`
when empty, else replace only on strictly better quality. -/
def chosenSlot (ctype : String) (c : Contact) (d : ChosenPair) : ChosenPair :=
  if ctype = "email" then
    match d.email with
    | none => { d with email := some c }
    | some e => if ppBetter c e then { d with email := some c } else d
  else
    match d.phone with
    | none => { d with phone := some c }
    | some e => if ppBetter c e then { d with phone := some c } else d

/-- `chosen`-dict update: create the pair slot on first sight
(`chosen[kp] = {}`), then update the slot of `ctype`. -/
def chosenUpd (kp : String × String) (ctype : String) (c : Contact) :
    List ((String × String) × ChosenPair) → List ((String × String) × ChosenPair)
  | [] => [(kp, chosenSlot ctype c {})]
  | (k2, d) :: rest =>
    if k2 = kp then (k2, chosenSlot ctype c d) :: rest
    else (k2, d) :: chosenUpd kp ctype c rest

/-- One iteration of the second loop of `_postprocess_and_dedup`: e-mails
and phones feed the per-person chosen slots; links dedupe on
(company, person, value) and go straight to the output. -/
def ppStage2Step
    (acc : List ((String × String) × ChosenPair) × List (String × String × String) × List Contact)
    (kv : (String × String × String × String) × Contact) :
    List ((String × String) × ChosenPair) × List (String × String × String) × List Contact :=
  if kv.1.2.2.1 = "email" || kv.1.2.2.1 = "phone" then
    (chosenUpd (kv.1.1, kv.1.2.1) kv.1.2.2.1 kv.2 acc.1, acc.2.1, acc.2.2)
  else if acc.2.1.contains (kv.1.1, kv.1.2.1, kv.1.2.2.2) then acc
  else (acc.1, acc.2.1 ++ [(kv.1.1, kv.1.2.1, kv.1.2.2.2)], acc.2.2 ++ [kv.2])

/-- `_postprocess_and_dedup`: collapse per full key, then keep at most one
e-mail and one phone per person; links first (in encounter order), then the
chosen e-mail/phone per person. -/
def postprocess_and_dedup (contacts : List Contact) : List Contact :=
  if contacts.isEmpty then []
  else
    ((ppStage1 contacts).foldl ppStage2Step ([], [], [])).2.2 ++
      (((ppStage1 contacts).foldl ppStage2Step ([], [], [])).1.map
        (fun kd => kd.2.email.toList ++ kd.2.phone.toList)).flatten

/-- A concrete evidence package (mirrors the example in `schemas.py`). -/
def evidenceJane : Evidence :=
  { source_url := "https://example.com/company/leadership"
  , selector_or_xpath := ".team-member h3"
  , verbatim_quote := "Jane Doe"
  , dom_node_screenshot := "evidence/example_jane_doe.png"
  , timestamp := 100
  , parser_version := "0.1.0-poc"
  , content_hash := "a1b2c3d4e5f67890123456789012345678901234567890123456789012345678" }

/-- The contact produced by `mkContact` on the Jane Doe inputs. -/
def contactJane : Contact :=
  { company := "Example Inc.", person_name := "Jane Doe",
    role_title := "Head of Marketing", contact_type := ContactType.email,
    contact_value := "jane.doe@example.com", evidence := evidenceJane,
    captured_at := 105, verification_status := VerificationStatus.VERIFIED }

/-- An anchor-sourced e-mail record (C7 witness). -/
def contactAnchor : Contact :=
  { company := "Acme LLP", person_name := "Jane Doe", role_title := "Partner",
    contact_type := ContactType.email, contact_value := "jane@acme.com",
    evidence :=
      { source_url := "https://acme.com/team", selector_or_xpath := ".card a[href*=\x27mailto:\x27]",
        verbatim_quote := "jane@acme.com", dom_node_screenshot := "e1.png",
        timestamp := 10, parser_version := "0.1.0-poc",
        content_hash := "a1b2c3d4e5f67890123456789012345678901234567890123456789012345678" },
    captured_at := 10, verification_status := VerificationStatus.VERIFIED }

/-- The same e-mail found in free text (C7 witness). -/
def contactText : Contact :=
  { company := "Acme LLP", person_name := "Jane Doe", role_title := "Partner",
    contact_type := ContactType.email, contact_value := "jane@acme.com",
    evidence :=
      { source_url := "https://acme.com/about", selector_or_xpath := ".card :text-email",
        verbatim_quote := "jane@acme.com", dom_node_screenshot := "e2.png",
        timestamp := 20, parser_version := "0.1.0-poc",
        content_hash := "a1b2c3d4e5f67890123456789012345678901234567890123456789012345678" },
    captured_at := 20, verification_status := VerificationStatus.VERIFIED }

/-- First Alberstadt name variant (C8 witness). -/
def contactAlb1 : Contact :=
  { company := "Acme LLP", person_name := "J. W. Alberstadt, Jr.",
    role_title := "Partner", contact_type := ContactType.email,
    contact_value := "jalberstadt@acme.com",
    evidence :=
      { source_url := "https://acme.com/team", selector_or_xpath := ".card a[href*=\x27mailto:\x27]",
        verbatim_quote := "jalberstadt@acme.com", dom_node_screenshot := "e3.png",
        timestamp := 30, parser_version := "0.1.0-poc",
        content_hash := "a1b2c3d4e5f67890123456789012345678901234567890123456789012345678" },
    captured_at := 30, verification_status := VerificationStatus.VERIFIED }

/-- Second Alberstadt name variant, punctuation/spacing only (C8 witness). -/
def contactAlb2 : Contact :=
  { company := "Acme LLP", person_name := "J. W.Alberstadt, Jr.",
    role_title := "Partner", contact_type := ContactType.phone,
    contact_value := "6175551234",
    evidence :=
      { source_url := "https://acme.com/team", selector_or_xpath := ".card a[href*=\x27tel:\x27]",
        verbatim_quote := "617-555-1234", dom_node_screenshot := "e4.png",
        timestamp := 40, parser_version := "0.1.0-poc",
        content_hash := "a1b2c3d4e5f67890123456789012345678901234567890123456789012345678" },
    captured_at := 40, verification_status := VerificationStatus.VERIFIED }

/-- Association-list lookup by key (dict access). -/
def lookupKV {K V : Type} [DecidableEq K] (k : K) : List (K × V) → Option V
  | [] => none
  | (k2, c) :: rest => if k2 = k then some c else lookupKV k rest

/-- Lookup-level invariant of the `best_by_key` fold over the contacts
inserted so far (`P`): every stored contact sits under its own key, comes
from `P`, and is never strictly beaten by a same-key member of `P`; every
member of `P` has a stored representative. -/
def S1Inv (P : Contact → Prop)
    (m : List ((String × String × String × String) × Contact)) : Prop :=
  (m.map Prod.fst).Nodup ∧
  (∀ k v, lookupKV k m = some v →
      k = ppKey v ∧ P v ∧ ∀ x, P x → ppKey x = k → ppBetter x v = false) ∧
  (∀ x, P x → ∃ v, lookupKV (ppKey x) m = some v)

/-- Invariant of the second loop over the processed `best_by_key` items
(`Q`): chosen keys are distinct; each chosen e-mail/phone slot holds a
processed item of the right type and pair that no processed same-pair
same-type item strictly beats; every processed e-mail/phone item has a
filled slot; and every output (link) entry is a processed non-email
non-phone item. -/
def S2Inv (Q : (String × String × String × String) × Contact → Prop)
    (st : List ((String × String) × ChosenPair) × List (String × String × String) × List Contact) :
    Prop :=
  (st.1.map Prod.fst).Nodup ∧
  (∀ kp d, lookupKV kp st.1 = some d →
      (∀ e, d.email = some e →
        (∃ kv, Q kv ∧ kv.2 = e ∧ kv.1.2.2.1 = "email" ∧ (kv.1.1, kv.1.2.1) = kp) ∧
        ∀ kv, Q kv → kv.1.2.2.1 = "email" → (kv.1.1, kv.1.2.1) = kp →
          ppBetter kv.2 e = false) ∧
      (∀ e, d.phone = some e →
        (∃ kv, Q kv ∧ kv.2 = e ∧ kv.1.2.2.1 = "phone" ∧ (kv.1.1, kv.1.2.1) = kp) ∧
        ∀ kv, Q kv → kv.1.2.2.1 = "phone" → (kv.1.1, kv.1.2.1) = kp →
          ppBetter kv.2 e = false)) ∧
  (∀ kv, Q kv → kv.1.2.2.1 = "email" →
    ∃ d, lookupKV (kv.1.1, kv.1.2.1) st.1 = some d ∧ d.email.isSome) ∧
  (∀ kv, Q kv → kv.1.2.2.1 = "phone" →
    ∃ d, lookupKV (kv.1.1, kv.1.2.1) st.1 = some d ∧ d.phone.isSome) ∧
  (∀ x ∈ st.2.2, ∃ kv, Q kv ∧ kv.2 = x ∧ kv.1.2.2.1 ≠ "email" ∧ kv.1.2.2.1 ≠ "phone")

/-! ### Ingestion pipeline — `src/pipeline/ingest.py` and the static fetcher -/

/-- `PlaywrightResult` (frozen dataclass, `src/pipeline/fetchers/playwright.py`). -/
structure PlaywrightResult where
  url : String
  status_code : Int
  html : Option String
  page_title : Option String
  error : Option String := none
deriving Repr, DecidableEq

/-- `IngestResult` from `src/pipeline/ingest.py` (`__post_init__` replaces a
`None` contacts field with `[]`, so the embedded field is a plain list). -/
structure IngestResult where
  url : String
  method : String
  success : Bool
  html : Option String
  status_code : Int
  contacts : List Contact := []
  escalation_decision : Option EscalationDecision := none
  error : Option String := none
deriving Repr, DecidableEq

/-- `IngestPipeline.HeadlessBudget` state: hard per-domain and global caps. -/
structure HeadlessBudget where
  domain_cap : Int := 2
  global_cap : Int := 10
  per_domain : List (String × Nat) := []
  global_used : Nat := 0
deriving Repr, DecidableEq

/-- `HeadlessBudget.can_spend`. -/
def HeadlessBudget.can_spend (b : HeadlessBudget) (domain : String) : Bool :=
  if (b.global_used : Int) ≥ b.global_cap then false
  else decide ((((lookupKV domain b.per_domain).getD 0 : Nat) : Int) < b.domain_cap)

/-- An HTTP response as consumed by `StaticFetcher.fetch`: the fields of
`resp` it reads (final URL after redirects, status, `Content-Type` header,
body text, body byte length, headers). -/
structure HttpResp where
  url : String
  status_code : Int
  content_type : Option String
  text : String
  content_length : Nat
  headers : List (String × String)
deriving Repr, DecidableEq

/-- The `mime_main` computation in `StaticFetcher.fetch`: a missing or falsy
(empty) header stays `None`, otherwise `mime.split(";")[0].strip().lower()`. -/
def mimeMain : Option String → Option String
  | none => none
  | some m =>
    if m.isEmpty then none
    else some (strLower (pyStrip (String.mk ((splitAtFirst (fun c => c = ';') m.data).1))))

/-- The robots-blocked `FetchResult` returned by `StaticFetcher.fetch`. -/
def robotsBlockedFetch (url : String) : FetchResult :=
  { url := url, status_code := 0, mime := none, content_length := 0,
    html := none, headers := [], blocked_by_robots := true }

/-- `StaticFetcher.fetch`, with its two network effects as parameters:
`robots_allows` is the value of `self._robots_allows(url)` and `pageGet` the
outcome of `self._client.get(url, follow_redirects=True)` (`Except.error`
models a raised exception). The robots gate precedes the page request, so a
disallowed URL returns the blocked result whatever `pageGet` would do. -/
def StaticFetcher.fetch (robots_allows : Bool) (pageGet : Except String HttpResp)
    (url : String) : Except String FetchResult :=
  if !robots_allows then Except.ok (robotsBlockedFetch url)
  else do
    let resp ← pageGet
    let mime_main := mimeMain resp.content_type
    let html_text := if mime_main = some "text/html" then some resp.text else none
    return { url := resp.url, status_code := resp.status_code, mime := mime_main,
             content_length := resp.content_length, html := html_text,
             headers := resp.headers, blocked_by_robots := false }

/-- `IngestPipeline._extract_domain`: `urlparse(url).netloc.lower()`.
`urlparse` is fallible: `urllib.parse` raises `ValueError("Invalid IPv6 URL")
` when the netloc contains an unmatched `[` or `]` (e.g. for `http://[`), so
the embedding returns `Except` (further bracketed-host validation raises of
newer CPython are not modelled; one escaping error path suffices below). The
source calls this at ingest.py:160, before the `try` block at line 202. -/
def extract_domain (url : String) : Except String String :=
  let netloc := (urlsplitLite url).netloc
  if (strContains netloc "[" && !strContains netloc "]") ||
      (strContains netloc "]" && !strContains netloc "[") then
    Except.error "Invalid IPv6 URL"
  else Except.ok (strLower netloc)

/-- Path regex of `_is_target_url`:
`/(our-)?team|people|leadership|management` (IGNORECASE). -/
def TARGET_PATH_RE : RE :=
  RE.alt (seqList [litCI "/", RE.opt (litCI "our-"), litCI "team"])
    (RE.alt (litCI "people") (RE.alt (litCI "leadership") (litCI "management")))

/-- `IngestPipeline._is_target_url`. -/
def is_target_url (url : String) : Bool :=
  reSearch TARGET_PATH_RE (strLower (urlsplitLite url).path)

/-- Team-page indicator terms of `_count_selector_hits`. -/
def TARGET_TERMS : List String :=
  ["team", "leadership", "management", "people", "staff", "executives"]

/-- `IngestPipeline._count_selector_hits`: falsy HTML counts zero, otherwise
one per indicator term contained in the lowercased page. -/
def count_selector_hits (html : Option String) : Nat :=
  if strTruthy html then
    match html with
    | some h => (TARGET_TERMS.filter (fun term => strContains (strLower h) term)).length
    | none => 0
  else 0

/-- The effectful collaborators of one `ingest(url)` call, as oracles:
`static_fetch` is `self.static_fetcher.fetch(url)`; `extract_static html` is
`self.contact_extractor.extract_from_static_html(html, url)`; `dom_extract`
is the guarded `extract_with_playwright(url)` call (an `Except.error` covers
a missing method, a non-list return and any raised exception, all caught by
the inner handler); `pw_fetch` is `self.playwright_fetcher.fetch(url)`. An
`Except.error` models a raised Python exception. -/
structure IngestEnv where
  static_fetch : Except String FetchResult
  extract_static : String → Except String (List Contact)
  dom_extract : Except String (List Contact)
  pw_fetch : Except String PlaywrightResult
  tracker : DomainTracker
  budget : HeadlessBudget
  enable_headless : Bool

/-- Early return of `ingest` for a robots-blocked fetch. -/
def robotsBlockedResult (url : String) : IngestResult :=
  { url := url, method := "static", success := false, html := none,
    status_code := 0, contacts := [], escalation_decision := none,
    error := some "Blocked by robots.txt" }

/-- Early return of `ingest` for an HTTP failure (`status_code >= 400`). -/
def httpFailResult (url : String) (sr : FetchResult) : IngestResult :=
  { url := url, method := "static", success := false, html := sr.html,
    status_code := sr.status_code, contacts := [],
    escalation_decision := none,
    error := some ("HTTP " ++ toString sr.status_code) }

/-- Result built by the outer exception handler of `ingest`. -/
def pipelineErrorResult (url e : String) : IngestResult :=
  { url := url, method := "unknown", success := false, html := none,
    status_code := 0, contacts := [], escalation_decision := none,
    error := some ("Pipeline error: " ++ e) }

/-- Steps of `IngestPipeline.ingest` after the Step-1 static fetch. State
mutations the rest of the call never reads back (`record_fetch("playwright")`,
`budget.spend`, OPS logging, timers) do not affect the returned value and
are left out; the static `record_fetch` is kept because the later
`can_use_headless` check reads it. -/
def ingestAfterFetch (env : IngestEnv) (url domain : String)
    (static_result : FetchResult) : Except String IngestResult := do
  let tracker1 := env.tracker.record_fetch domain "static"
  if static_result.blocked_by_robots then
    return robotsBlockedResult url
  else if static_result.status_code ≥ 400 then
    return httpFailResult url static_result
  else
    -- Step 2: decide escalation first
    let is_target := is_target_url url
    let selector_hits := count_selector_hits static_result.html
    let escalation0 := decide_escalation static_result selector_hits
    let branch : Except String (Option (List Contact) × EscalationDecision) :=
      if !escalation0.escalate then do
        let contacts_static ←
          if static_result.mime = some "text/html" && strTruthy static_result.html then
            env.extract_static (static_result.html.getD "")
          else
            pure []
        -- smart escalation rule: target URL with 0 contacts
        if env.enable_headless && is_target && contacts_static.isEmpty then
          return (some contacts_static,
            ⟨true, escalation0.reasons ++ ["target_url_no_contacts"]⟩)
        else
          return (some contacts_static, escalation0)
      else
        -- soft rule for JS-only markers when static already yields >= 1
        if escalation0.reasons.all (fun r => strStartsWith r "js:") &&
            static_result.mime = some "text/html" && strTruthy static_result.html then do
          let tmp_contacts ← env.extract_static (static_result.html.getD "")
          if !tmp_contacts.isEmpty && 0 < selector_hits then
            return (some tmp_contacts, ⟨false, escalation0.reasons⟩)
          else
            return (none, escalation0)
        else
          return (none, escalation0)
    let pair ← branch
    let contacts_static := pair.1
    -- hard guard: never escalate non-target paths
    let escalation :=
      if !is_target then (⟨false, pair.2.reasons⟩ : EscalationDecision) else pair.2
    -- Step 3: no escalation or headless disabled, static success
    if !escalation.escalate || !env.enable_headless then
      return { url := url, method := "static", success := true,
               html := static_result.html, status_code := static_result.status_code,
               contacts := contacts_static.getD [],
               escalation_decision := some escalation }
    -- Step 4: guardrails (percentage, then hard budgets)
    else if !(tracker1.can_use_headless domain) then
      return { url := url, method := "static", success := false,
               html := static_result.html, status_code := static_result.status_code,
               contacts := contacts_static.getD [],
               escalation_decision := some escalation,
               error := some ("Headless quota exceeded for " ++ domain) }
    else if !(env.budget.can_spend domain) then
      return { url := url, method := "static", success := false,
               html := static_result.html, status_code := static_result.status_code,
               contacts := contacts_static.getD [],
               escalation_decision := some escalation,
               error := some ("Headless budget exhausted (domain=" ++ domain ++ ")") }
    else
      -- Step 5: escalate to Playwright
      match env.dom_extract with
      | Except.ok contacts =>
        if 0 < contacts.length then
          return { url := url, method := "playwright", success := true, html := none,
                   status_code := 200, contacts := contacts,
                   escalation_decision := some escalation }
        else
          return { url := url, method := "static", success := true,
                   html := static_result.html,
                   status_code := static_result.status_code,
                   contacts := contacts_static.getD [],
                   escalation_decision := some escalation }
      | Except.error _ => do
        -- fallback: fetch HTML via Playwright and run the static extractor
        let pw ← env.pw_fetch
        if strTruthy pw.error then
          return { url := url, method := "static", success := true,
                   html := static_result.html,
                   status_code := static_result.status_code,
                   contacts := contacts_static.getD [],
                   escalation_decision := some escalation }
        else do
          let contacts ← env.extract_static (pw.html.getD "")
          return { url := url, method := "playwright", success := true,
                   html := pw.html, status_code := pw.status_code,
                   contacts := contacts, escalation_decision := some escalation }

/-- Body of `IngestPipeline.ingest` (the `try` block at ingest.py:202):
Step 1 always tries the static fetch first, then the remaining steps run on
its result. The domain was computed before the `try` and is a parameter. -/
def ingestBody (env : IngestEnv) (url domain : String) : Except String IngestResult :=
  match env.static_fetch with
  | Except.ok static_result => ingestAfterFetch env url domain static_result
  | Except.error e => Except.error e

/-- `IngestPipeline.ingest`. `domain = self._extract_domain(url)` runs at
ingest.py:160, *before* the `try` at line 202, so a `ValueError` raised by
`urlparse` there escapes the call (outer `Except.error`); only exceptions
raised inside the `try` are converted by the `except Exception` handler into
a `Pipeline error` result. -/
def ingest (env : IngestEnv) (url : String) : Except String IngestResult :=
  match extract_domain url with
  | Except.error e => Except.error e
  | Except.ok domain =>
    Except.ok
      (match ingestBody env url domain with
        | Except.ok r => r
        | Except.error e => pipelineErrorResult url e)

/-- C2 witness input: a robots-blocked static fetch. -/
def srBlocked : FetchResult := robotsBlockedFetch "https://example.com/team"

/-- C2 witness input: a 404 static fetch. -/
def sr404 : FetchResult :=
  { url := "https://example.com/team", status_code := 404, mime := some "text/html",
    content_length := 22, html := some "<html>not found</html>", headers := [],
    blocked_by_robots := false }

/-- C2 witness environment around `srBlocked`. -/
def envC2base : IngestEnv :=
  { static_fetch := Except.ok srBlocked,
    extract_static := fun _ => Except.ok [],
    dom_extract := Except.ok [],
    pw_fetch := Except.error "no browser",
    tracker := { max_headless_pct := maxHeadlessPctDefault, domain_stats := [] },
    budget := {}, enable_headless := true }

/-- C2 witness environment whose static fetch returns `sr404`. -/
def envC2_404 : IngestEnv := { envC2base with static_fetch := Except.ok sr404 }

/-! Reason strings of distinct escalation rules never collide: each rule's
string starts with a different character. -/

theorem mimeReason_ne_js (m p : String) : mimeReason m ≠ "js:" ++ p := by
  intro h
  have := congrArg (fun s => s.data.head?) h
  simp [mimeReason, String.data_append] at this

theorem mimeReason_ne_thin (m : String) : mimeReason m ≠ thinReason := by
  intro h
  have := congrArg (fun s => s.data.head?) h
  simp [mimeReason, thinReason, String.data_append] at this

theorem mimeReason_ne_antiBot (m : String) : mimeReason m ≠ antiBotReason := by
  intro h
  have := congrArg (fun s => s.data.head?) h
  simp [mimeReason, antiBotReason, String.data_append] at this

theorem mimeReason_ne_cards (m : String) : mimeReason m ≠ cardsReason := by
  intro h
  have := congrArg (fun s => s.data.head?) h
  simp [mimeReason, cardsReason, String.data_append] at this

theorem cardsReason_ne_js (p : String) : cardsReason ≠ "js:" ++ p := by
  intro h
  have := congrArg (fun s => s.data.head?) h
  simp [cardsReason, String.data_append] at this

/-- Every reason emitted by `detect_js_markers` is of the shape
`"js:" ++ pattern`. -/
theorem detect_js_markers_shape (h : Option String) (r : String)
    (hr : r ∈ detect_js_markers h) : ∃ p, r = "js:" ++ p := by
  unfold detect_js_markers at hr
  split at hr
  · match h with
    | some s =>
      simp only [List.mem_filterMap] at hr
      obtain ⟨pr, _, hpr⟩ := hr
      split at hpr
      · exact ⟨pr.1, (Option.some_inj.mp hpr).symm⟩
      · cases hpr
    | none => cases hr
  · cases hr

/-- An element of the thin-page rule's output is `thinReason`. -/
theorem mem_escThinReasons (hits clen : Nat) (r : String)
    (hr : r ∈ escThinReasons hits clen) : r = thinReason := by
  unfold escThinReasons at hr
  split at hr
  · simpa using hr
  · cases hr

/-- An element of the anti-bot rule's output is `antiBotReason`. -/
theorem mem_escAntiBotReasons (html : Option String) (r : String)
    (hr : r ∈ escAntiBotReasons html) : r = antiBotReason := by
  unfold escAntiBotReasons at hr
  split at hr
  · simpa using hr
  · cases hr

/-- An element of the cards rule's output is `cardsReason`. -/
theorem mem_escCardsReasons (html : Option String) (r : String)
    (hr : r ∈ escCardsReasons html) : r = cardsReason := by
  unfold escCardsReasons at hr
  split at hr
  · simpa using hr
  · cases hr

/-- The MIME reason string determines the MIME value. -/
theorem mimeReason_inj {a b : String} (h : mimeReason a = mimeReason b) : a = b := by
  have h2 := congrArg String.data h
  simp only [mimeReason, String.data_append] at h2
  exact String.ext (List.append_cancel_left (List.append_cancel_right h2))

/-- Membership in the MIME rule's output, characterised. -/
theorem mem_escMimeReasons (mime : Option String) (m : String) :
    mimeReason m ∈ escMimeReasons mime ↔ mime = some m ∧ m ≠ "text/html" := by
  rcases mime with _ | m0
  · simp [escMimeReasons]
  · simp only [escMimeReasons]
    by_cases hne : m0 = "text/html"
    · subst hne
      rw [if_neg (by simp)]
      constructor
      · intro hr; cases hr
      · rintro ⟨hm, hne2⟩
        exact absurd (Option.some_inj.mp hm).symm hne2
    · rw [if_pos hne]
      constructor
      · intro hr
        have hm : m = m0 := mimeReason_inj (List.mem_singleton.mp hr)
        subst hm
        exact ⟨rfl, hne⟩
      · rintro ⟨hm, _⟩
        have : m0 = m := Option.some_inj.mp hm
        subst this
        exact List.mem_singleton.mpr rfl

/-- Spelled-out membership of the MIME reason in a decision's reason list:
it can only come from the MIME rule. -/
theorem mimeReason_mem_iff (fetch : FetchResult) (hits : Nat) (m : String) :
    mimeReason m ∈ (decide_escalation fetch hits).reasons ↔
      fetch.mime = some m ∧ m ≠ "text/html" := by
  unfold decide_escalation
  simp only [List.mem_append]
  constructor
  · rintro ((((h1 | h2) | h3) | h4) | h5)
    · exact (mem_escMimeReasons fetch.mime m).mp h1
    · exact absurd (mem_escThinReasons _ _ _ h2) (mimeReason_ne_thin m)
    · exact absurd (mem_escAntiBotReasons _ _ h3) (mimeReason_ne_antiBot m)
    · obtain ⟨p, hp⟩ := detect_js_markers_shape fetch.html _ h4
      exact absurd hp (mimeReason_ne_js m p)
    · exact absurd (mem_escCardsReasons _ _ h5) (mimeReason_ne_cards m)
  · intro h
    exact .inl (.inl (.inl (.inl ((mem_escMimeReasons fetch.mime m).mpr h))))

/-- Membership in the cards rule's output, characterised. -/
theorem mem_escCardsReasons_iff (html : Option String) :
    cardsReason ∈ escCardsReasons html ↔ detect_cards_without_contacts html = true := by
  unfold escCardsReasons
  split
  · simp only [List.mem_singleton, true_iff]
    assumption
  · simp only [List.not_mem_nil, false_iff]
    simp_all

/-- An element of the MIME rule's output is a MIME reason string. -/
theorem mem_escMimeReasons_shape (mime : Option String) (r : String)
    (hr : r ∈ escMimeReasons mime) : ∃ m, r = mimeReason m := by
  rcases mime with _ | m0
  · cases hr
  · simp only [escMimeReasons] at hr
    split at hr
    · exact ⟨m0, List.mem_singleton.mp hr⟩
    · cases hr

/-- The cards reason can only come from the repeating-cards rule. -/
theorem cardsReason_mem_iff (fetch : FetchResult) (hits : Nat) :
    cardsReason ∈ (decide_escalation fetch hits).reasons ↔
      detect_cards_without_contacts fetch.html = true := by
  unfold decide_escalation
  simp only [List.mem_append]
  constructor
  · rintro ((((h1 | h2) | h3) | h4) | h5)
    · obtain ⟨m, hm⟩ := mem_escMimeReasons_shape fetch.mime _ h1
      exact absurd hm.symm (mimeReason_ne_cards m)
    · exact absurd (mem_escThinReasons _ _ _ h2) (by decide)
    · exact absurd (mem_escAntiBotReasons _ _ h3) (by decide)
    · obtain ⟨p, hp⟩ := detect_js_markers_shape fetch.html _ h4
      exact absurd hp (cardsReason_ne_js p)
    · exact (mem_escCardsReasons_iff fetch.html).mp h5
  · intro h
    exact .inr ((mem_escCardsReasons_iff fetch.html).mpr h)

/-- `detect_cards_without_contacts` on a present page, as one boolean
formula. -/
theorem detect_cards_some (s : String) :
    detect_cards_without_contacts (some s) =
      (!s.isEmpty &&
        !(strContains (strLower s) "href=\"mailto:" || strContains (strLower s) "href=\"tel:") &&
        (decide (cardClassCount s ≥ 3) || decide (h34Count s ≥ 8))) := by
  simp only [detect_cards_without_contacts, strTruthy]
  split_ifs with h1 h2 h3 <;> simp_all
  rintro ha hb
  rcases h2 with h | h <;> simp_all

/-- C3: the original claim asserts the MIME-mismatch reason also fires for a
missing (`None`) MIME; the code skips the rule entirely then.  On
`fetchMimeNone` (MIME `None`, big body, nonzero selector hits) the decision
carries no reason at all. -/
theorem claim_C3_counterexample :
    (decide_escalation fetchMimeNone 7).reasons = [] := rfl

/-- C3 (amended): for every fetch whose MIME type is present and differs
from `text/html`, and every selector-hit count, the decision's reasons
include the MIME-mismatch reason; when the MIME type is missing (`None`),
no MIME-mismatch reason is ever emitted. -/
theorem claim_C3_theorem (fetch : FetchResult) (hits : Nat) :
    (∀ m, fetch.mime = some m → m ≠ "text/html" →
      mimeReason m ∈ (decide_escalation fetch hits).reasons) ∧
    (fetch.mime = none →
      ∀ m, mimeReason m ∉ (decide_escalation fetch hits).reasons) := by
  constructor
  · intro m hm hne
    exact (mimeReason_mem_iff fetch hits m).mpr ⟨hm, hne⟩
  · intro hn m hmem
    have h := (mimeReason_mem_iff fetch hits m).mp hmem
    rw [hn] at h
    cases h.1

/-- C3 witness: the amended theorem applied at `fetchJson`
(MIME `application/json`). -/
theorem claim_C3_witness :
    mimeReason "application/json" ∈ (decide_escalation fetchJson 3).reasons :=
  (claim_C3_theorem fetchJson 3).1 "application/json" rfl (by decide)

/-- C9: the original claim says the cards reason fires exactly when there
are no `mailto:`/`tel:` anchors and at least 3 card-class matches; on
`fetchH8` (eight `<h3>` tags, zero card-class matches, no anchors) the
reason still fires, refuting the only-if direction. -/
theorem claim_C9_counterexample :
    (decide_escalation fetchH8 1).reasons = [cardsReason] ∧
      cardClassCount htmlH8 = 0 := by
  constructor <;> decide

/-- C9 (amended): the cards reason appears in the decision exactly when the
page's HTML is present and non-empty, its lowercase text contains neither
`href="mailto:` nor `href="tel:`, and either at least 3 elements match the
team/member/profile/person class regex or at least 8 `h3`/`h4` tags
appear. -/
theorem claim_C9_theorem (fetch : FetchResult) (hits : Nat) :
    cardsReason ∈ (decide_escalation fetch hits).reasons ↔
      ∃ s, fetch.html = some s ∧ s.isEmpty = false ∧
        (strContains (strLower s) "href=\"mailto:" || strContains (strLower s) "href=\"tel:") = false ∧
        (cardClassCount s ≥ 3 ∨ h34Count s ≥ 8) := by
  rw [cardsReason_mem_iff]
  rcases hh : fetch.html with _ | s
  · simp [detect_cards_without_contacts, strTruthy]
  · rw [detect_cards_some]
    constructor
    · intro h
      simp only [Bool.and_eq_true, Bool.not_eq_true', Bool.or_eq_true,
        decide_eq_true_eq] at h
      exact ⟨s, rfl, h.1.1, h.1.2, h.2⟩
    · rintro ⟨s2, hs2, h1, h2, h3⟩
      cases hs2
      simp only [Bool.and_eq_true, Bool.not_eq_true', Bool.or_eq_true,
        decide_eq_true_eq]
      exact ⟨⟨h1, h2⟩, h3⟩

/-- C5: `can_use_headless` holds exactly when the domain has no recorded
fetches or its headless share is strictly below the cap; and after 4 static
plus 1 playwright recorded fetches (exactly 20%) under the default cap, the
next call returns false. -/
theorem claim_C5_theorem (t : DomainTracker) (domain : String) :
    (t.can_use_headless domain = true ↔
      ((statsFor t.domain_stats domain).static + (statsFor t.domain_stats domain).headless = 0 ∨
        ((statsFor t.domain_stats domain).headless : ℚ) /
            (((statsFor t.domain_stats domain).static + (statsFor t.domain_stats domain).headless : Nat) : ℚ) <
          t.max_headless_pct)) ∧
    trackerAfter4s1h.can_use_headless "example.com" = false := by
  constructor
  · unfold DomainTracker.can_use_headless
    by_cases h : (statsFor t.domain_stats domain).static + (statsFor t.domain_stats domain).headless = 0
    · simp [h]
    · simp [h]
  · unfold DomainTracker.can_use_headless
    have hstats : statsFor trackerAfter4s1h.domain_stats "example.com" =
        { static := 4, headless := 1 } := by decide
    have hpct : trackerAfter4s1h.max_headless_pct = maxHeadlessPctDefault := rfl
    rw [hstats, hpct]
    norm_num [maxHeadlessPctDefault]

/-- C1: with neither an exact/similar brand match nor the free-mail
allowance, a candidate email is accepted iff its cross-domain score reaches
the threshold AND at least one strong signal (phone in card, vCard in card,
page repeat ≥ 2, footer mention, site repeat ≥ 3) holds; in particular any
candidate with all strong signals absent is rejected, whatever the other
score contributions are. -/
theorem claim_C1_theorem :
    (∀ g : XdomSignals,
      emailAcceptStatic false false g =
        (decide (xdomScoreStatic g ≥ XDOM_THRESHOLD) &&
          xdom_min_confirmation_ok g.has_phone g.has_vcard g.page_domain_count
            g.domain_in_footer g.site_domain_count)) ∧
    (∀ (card title mailto shw neg : Bool),
      emailAcceptStatic false false
        { in_person_card := card, has_title := title, from_mailto := mailto,
          has_phone := false, has_vcard := false, has_show_trigger := shw,
          page_domain_count := 0, site_domain_count := 0,
          domain_in_footer := false, negative_zone := neg } = false) := by
  constructor
  · intro g
    unfold emailAcceptStatic
    by_cases h : xdomScoreStatic g ≥ XDOM_THRESHOLD
    · simp [h]
    · simp [h]
  · intro card title mailto shw neg
    unfold emailAcceptStatic
    by_cases h : xdomScoreStatic
        { in_person_card := card, has_title := title, from_mailto := mailto,
          has_phone := false, has_vcard := false, has_show_trigger := shw,
          page_domain_count := 0, site_domain_count := 0,
          domain_in_footer := false, negative_zone := neg } ≥ XDOM_THRESHOLD
    · simp [h, xdom_min_confirmation_ok]
    · simp [h]

/-- C10: `Contact` construction ignores the caller-supplied
`verification_status` (the result is literally the same `Except` value for
any two supplied statuses), and every successfully constructed contact has
status `VERIFIED` — evidence is a mandatory field and `model_post_init`
re-derives the status from it, so construction can never produce an
`UNVERIFIED` contact. -/
theorem claim_C10_theorem (company person role : String) (ty : ContactType)
    (value : String) (ev : Evidence) (cap : Nat) (vs vs2 : VerificationStatus) :
    mkContact company person role ty value ev cap vs =
      mkContact company person role ty value ev cap vs2 ∧
    (∀ c, mkContact company person role ty value ev cap vs = .ok c →
      c.verification_status = VerificationStatus.VERIFIED) := by
  constructor
  · rfl
  · intro c h
    unfold mkContact at h
    split_ifs at h <;> cases h <;> rfl

/-- What `textPhoneLoop` returns always passed the digit-length and
date-pattern filters and came from the scanned match list. -/
theorem textPhoneLoop_spec (l : List String) (num raw : String)
    (h : textPhoneLoop l = some (num, raw)) :
    10 ≤ num.length ∧ num.length ≤ 15 ∧ dateLike num = false ∧
      num = digitsOnly raw ∧ raw ∈ l := by
  induction l with
  | nil => cases h
  | cons hd tl ih =>
    unfold textPhoneLoop at h
    split_ifs at h with h1 h2
    · have := ih h
      exact ⟨this.1, this.2.1, this.2.2.1, this.2.2.2.1, List.mem_cons_of_mem hd this.2.2.2.2⟩
    · have := ih h
      exact ⟨this.1, this.2.1, this.2.2.1, this.2.2.2.1, List.mem_cons_of_mem hd this.2.2.2.2⟩
    · injection h with h3
      cases h3
      simp only [Bool.or_eq_true, not_or, decide_eq_true_eq, Bool.not_eq_true] at h1
      obtain ⟨⟨-, hlt⟩, hgt⟩ := h1
      exact ⟨by omega, by omega, by simpa using h2, rfl, List.mem_cons_self _ _⟩

/-- C4: the original claim requires a contextual marker word
("phone"/"tel"/localized) near a free-text phone; the extractor has no such
check.  On `textNoMarker` ("Call me: 617-555-1234") no marker word occurs,
yet the free-text loop accepts the number and a phone `Contact` is
emitted. -/
theorem claim_C4_counterexample :
    specPhoneMarkerNearby textNoMarker = false ∧
      textPhoneFirst textNoMarker = some ("6175551234", "617-555-1234") ∧
      (emitTextPhoneContacts "Acme LLP" "John Doe" "Engineer" evidenceJane 7
        (textPhoneFirst textNoMarker)).length = 1 := by
  refine ⟨by decide, by decide, by decide⟩

/-- C4 (amended): a phone found via free text in a person card is accepted
exactly on the digit filters — the digit-normalized length is between 10
and 15 and the digits do not match `^(19|20)\d{6,8}$` — with the first
surviving `findall` match taken; no contextual marker word is required or
consulted. -/
theorem claim_C4_theorem (text num raw : String)
    (h : textPhoneFirst text = some (num, raw)) :
    10 ≤ num.length ∧ num.length ≤ 15 ∧ dateLike num = false ∧
      num = digitsOnly raw ∧ raw ∈ reFindall phone_pattern text :=
  textPhoneLoop_spec (reFindall phone_pattern text) num raw h

/-- C4 witness: the amended theorem applied to `textNoMarker`. -/
theorem claim_C4_witness :
    10 ≤ ("6175551234" : String).length ∧ ("6175551234" : String).length ≤ 15 ∧
      dateLike "6175551234" = false ∧
      ("6175551234" : String) = digitsOnly "617-555-1234" ∧
      "617-555-1234" ∈ reFindall phone_pattern textNoMarker :=
  claim_C4_theorem textNoMarker "6175551234" "617-555-1234" (by decide)

/-- The quality tuple of a free-text record never beats an anchor record:
anchor-origin is the first lexicographic component. -/
theorem qtGT_text_vs_anchor (a b : Nat × Nat × Nat × Int × Nat)
    (ha : a.1 = 0) (hb : b.1 = 1) : qtGT a b = false ∧ qtGT b a = true := by
  unfold qtGT
  rw [ha, hb]
  norm_num

/-- C7: under identical export keys, the anchor-sourced record survives the
export dedup whichever order the two records arrive in. -/
theorem claim_C7_theorem (c1 c2 : Contact)
    (hkey : export_norm_key c1 = export_norm_key c2)
    (h1 : isAnchorSelector (strLower c1.evidence.selector_or_xpath) = true)
    (h2 : isAnchorSelector (strLower c2.evidence.selector_or_xpath) = false) :
    dedupe_contacts_for_export [c1, c2] = [c1] ∧
      dedupe_contacts_for_export [c2, c1] = [c1] := by
  have hq1 : (quality_tuple c1).1 = 1 := by simp [quality_tuple, h1]
  have hq2 : (quality_tuple c2).1 = 0 := by simp [quality_tuple, h2]
  obtain ⟨hgt21, hgt12⟩ := qtGT_text_vs_anchor _ _ hq2 hq1
  constructor
  · unfold dedupe_contacts_for_export
    rw [if_neg (by simp)]
    simp only [List.foldl_cons, List.foldl_nil, upsertWith]
    rw [if_pos hkey, if_neg (by simp [hgt21])]
    rfl
  · unfold dedupe_contacts_for_export
    rw [if_neg (by simp)]
    simp only [List.foldl_cons, List.foldl_nil, upsertWith]
    rw [if_pos hkey.symm, if_pos (by simp [hgt12])]
    rfl

/-- C7 witness: the theorem applied to the concrete anchor/text pair. -/
theorem claim_C7_witness :
    dedupe_contacts_for_export [contactAnchor, contactText] = [contactAnchor] ∧
      dedupe_contacts_for_export [contactText, contactAnchor] = [contactAnchor] :=
  claim_C7_theorem contactAnchor contactText (by decide) (by decide) (by decide)

/-- `normalize_person_name` is the single-space join of the
comma/period/whitespace tokens. -/
theorem normalize_person_name_eq_join (s : String) :
    normalize_person_name s = String.intercalate " " (namePunctTokens s) := by
  unfold normalize_person_name namePunctTokens
  split_ifs with h
  · have hs : s = "" := (String.isEmpty_iff s).mp h
    subst hs
    rfl
  · rfl

/-- C8: person-name variants with the same comma/period/whitespace token
decomposition share one normalized key (in particular the two Alberstadt
spellings), and two contacts bearing such variants with the same normalized
company collapse into a single consolidated person row. -/
theorem claim_C8_theorem :
    (∀ s1 s2 : String, namePunctTokens s1 = namePunctTokens s2 →
      normalize_person_name s1 = normalize_person_name s2) ∧
    normalize_person_name "J. W. Alberstadt, Jr." =
      normalize_person_name "J. W.Alberstadt, Jr." ∧
    (∀ c1 c2 : Contact,
      strLower (pyStrip c1.company) = strLower (pyStrip c2.company) →
      namePunctTokens c1.person_name = namePunctTokens c2.person_name →
      isNonPersonName c1.person_name = false →
      isNonPersonName c2.person_name = false →
      (consolidate_per_person [c1, c2]).length = 1) := by
  have hjoin : ∀ s1 s2 : String, namePunctTokens s1 = namePunctTokens s2 →
      normalize_person_name s1 = normalize_person_name s2 := by
    intro s1 s2 h
    rw [normalize_person_name_eq_join, normalize_person_name_eq_join, h]
  refine ⟨hjoin, by decide, ?_⟩
  intro c1 c2 hcomp htok hnp1 hnp2
  have hkey : ((strLower (pyStrip c1.company), normalize_person_name c1.person_name) :
      String × String) =
      (strLower (pyStrip c2.company), normalize_person_name c2.person_name) := by
    rw [hcomp, hjoin c1.person_name c2.person_name htok]
  unfold consolidate_per_person
  rw [if_neg (by simp)]
  simp only [List.filter_cons, List.filter_nil, hnp1, hnp2, Bool.not_false, if_true]
  rw [if_neg (by simp)]
  unfold groupByPerson
  simp only [List.foldl_cons, List.foldl_nil, groupUpd]
  rw [if_pos hkey]
  rfl

/-- C8 witness: the theorem's consolidation part applied to the two
concrete Alberstadt contacts (and the name-key part at their names). -/
theorem claim_C8_witness :
    (consolidate_per_person [contactAlb1, contactAlb2]).length = 1 :=
  claim_C8_theorem.2.2 contactAlb1 contactAlb2 (by decide) (by decide)
    (by decide) (by decide)

/-- C10 witness: on the Jane Doe inputs the construction succeeds, produces
`contactJane`, and its status is `VERIFIED` no matter which status the
caller passed. -/
theorem claim_C10_witness :
    mkContact "Example Inc." "Jane Doe" "Head of Marketing" ContactType.email
        "jane.doe@example.com" evidenceJane 105 VerificationStatus.UNVERIFIED =
      mkContact "Example Inc." "Jane Doe" "Head of Marketing" ContactType.email
        "jane.doe@example.com" evidenceJane 105 VerificationStatus.VERIFIED ∧
    contactJane.verification_status = VerificationStatus.VERIFIED :=
  ⟨( claim_C10_theorem "Example Inc." "Jane Doe" "Head of Marketing" ContactType.email
      "jane.doe@example.com" evidenceJane 105 VerificationStatus.UNVERIFIED
      VerificationStatus.VERIFIED).1,
    ( claim_C10_theorem "Example Inc." "Jane Doe" "Head of Marketing" ContactType.email
      "jane.doe@example.com" evidenceJane 105 VerificationStatus.UNVERIFIED
      VerificationStatus.VERIFIED).2 contactJane (by rfl)⟩


theorem r2GT_irrefl (a : Nat × Nat) : r2GT a a = false := by
  unfold r2GT
  simp

theorem r2GT_trans {a b c : Nat × Nat} (h1 : r2GT a b = true) (h2 : r2GT b c = true) :
    r2GT a c = true := by
  unfold r2GT at h1 h2 ⊢
  split_ifs at h1 h2 ⊢ <;> simp_all <;> omega

theorem r2GT_linear {a b c : Nat × Nat} (h : r2GT a c = true) :
    r2GT a b = true ∨ r2GT b c = true := by
  unfold r2GT at h ⊢
  split_ifs at h ⊢ <;> simp_all <;> omega

theorem lookupKV_upsertWith {K : Type} [DecidableEq K] (k : K) (c : Contact)
    (better : Contact → Contact → Bool) (m : List (K × Contact)) (k2 : K) :
    lookupKV k2 (upsertWith k c better m) =
      if k2 = k then
        match lookupKV k m with
        | none => some c
        | some prev => if better c prev then some c else some prev
      else lookupKV k2 m := by
  induction m with
  | nil =>
    by_cases h : k2 = k
    · simp [upsertWith, lookupKV, h]
    · have h2 : ¬ k = k2 := fun hh => h hh.symm
      simp [upsertWith, lookupKV, h, h2]
  | cons hd tl ih =>
    rcases hd with ⟨kh, ch⟩
    by_cases hk : kh = k
    · subst hk
      by_cases h2 : kh = k2
      · subst h2
        by_cases hb : better c ch <;> simp [upsertWith, lookupKV, hb]
      · have h2b : ¬ k2 = kh := fun hh => h2 hh.symm
        by_cases hb : better c ch <;> simp [upsertWith, lookupKV, hb, h2, h2b]
    · by_cases h2 : kh = k2
      · subst h2
        simp [upsertWith, lookupKV, hk]
      · simp [upsertWith, lookupKV, hk, h2, ih]

theorem lookupKV_mem {K V : Type} [DecidableEq K] {k : K} {v : V}
    {m : List (K × V)} (h : lookupKV k m = some v) : (k, v) ∈ m := by
  induction m with
  | nil => cases h
  | cons hd tl ih =>
    rcases hd with ⟨kh, ch⟩
    by_cases hk : kh = k
    · subst hk
      simp [lookupKV] at h
      subst h
      exact List.mem_cons_self _ _
    · simp [lookupKV, hk] at h
      exact List.mem_cons_of_mem _ (ih h)

theorem mem_lookupKV {K V : Type} [DecidableEq K] {m : List (K × V)}
    (hnd : (m.map Prod.fst).Nodup) {kv : K × V} (h : kv ∈ m) :
    lookupKV kv.1 m = some kv.2 := by
  induction m with
  | nil => cases h
  | cons hd tl ih =>
    rcases hd with ⟨kh, ch⟩
    rcases List.mem_cons.mp h with h2 | h2
    · subst h2
      simp [lookupKV]
    · have hk : ¬ kh = kv.1 := by
        intro hh
        subst hh
        have hmm : kv.1 ∈ tl.map Prod.fst := List.mem_map.mpr ⟨kv, h2, rfl⟩
        exact (List.nodup_cons.mp hnd).1 hmm
      simp only [lookupKV, if_neg hk]
      exact ih (List.nodup_cons.mp hnd).2 h2

theorem keys_upsertWith {K : Type} [DecidableEq K] (k : K) (c : Contact)
    (better : Contact → Contact → Bool) (m : List (K × Contact)) :
    (upsertWith k c better m).map Prod.fst =
      if k ∈ m.map Prod.fst then m.map Prod.fst else m.map Prod.fst ++ [k] := by
  induction m with
  | nil => simp [upsertWith]
  | cons hd tl ih =>
    rcases hd with ⟨kh, ch⟩
    by_cases hk : kh = k
    · subst hk
      by_cases hb : better c ch <;> simp [upsertWith, hb]
    · have hne : ¬ k = kh := fun hh => hk hh.symm
      by_cases hmem : k ∈ tl.map Prod.fst <;>
        simp [upsertWith, hk, hmem, hne, ih]

theorem nodup_upsertWith {K : Type} [DecidableEq K] (k : K) (c : Contact)
    (better : Contact → Contact → Bool) {m : List (K × Contact)}
    (h : (m.map Prod.fst).Nodup) : ((upsertWith k c better m).map Prod.fst).Nodup := by
  rw [keys_upsertWith]
  by_cases hmem : k ∈ m.map Prod.fst
  · simpa [hmem] using h
  · simp only [hmem, if_false]
    exact List.Nodup.append h (List.nodup_singleton k) (by simpa using hmem)

theorem ppBetter_irrefl (c : Contact) : ppBetter c c = false :=
  r2GT_irrefl _

theorem ppBetter_step {x c prev : Contact} (hxp : ppBetter x prev = false)
    (hcp : ppBetter c prev = true) : ppBetter x c = false := by
  cases h : ppBetter x c
  · rfl
  · have := r2GT_trans (a := ppQuality x) (b := ppQuality c) (c := ppQuality prev) h hcp
    rw [show r2GT (ppQuality x) (ppQuality prev) = ppBetter x prev from rfl, hxp] at this
    cases this

theorem ppBetter_chain {x v e : Contact} (h1 : ppBetter x v = false)
    (h2 : ppBetter v e = false) : ppBetter x e = false := by
  cases h : ppBetter x e
  · rfl
  · rcases r2GT_linear (a := ppQuality x) (b := ppQuality v) (c := ppQuality e) h with hh | hh
    · rw [show r2GT (ppQuality x) (ppQuality v) = ppBetter x v from rfl, h1] at hh
      cases hh
    · rw [show r2GT (ppQuality v) (ppQuality e) = ppBetter v e from rfl, h2] at hh
      cases hh

theorem S1Inv_upsert {P : Contact → Prop}
    {m : List ((String × String × String × String) × Contact)}
    (h : S1Inv P m) (c : Contact) :
    S1Inv (fun x => P x ∨ x = c) (upsertWith (ppKey c) c ppBetter m) := by
  obtain ⟨hnd, hstore, hcover⟩ := h
  refine ⟨nodup_upsertWith _ _ _ hnd, ?_, ?_⟩
  · intro k v hv
    rw [lookupKV_upsertWith] at hv
    by_cases hk : k = ppKey c
    · rw [if_pos hk] at hv
      rcases hprev : lookupKV (ppKey c) m with _ | prev
      · rw [hprev] at hv
        have hv2 : some c = some v := hv
        injection hv2 with hv2
        subst hv2
        refine ⟨hk, Or.inr rfl, ?_⟩
        intro x hx hkey
        rcases hx with hx | rfl
        · obtain ⟨w, hw⟩ := hcover x hx
          rw [hkey, hk, hprev] at hw
          cases hw
        · exact ppBetter_irrefl _
      · rw [hprev] at hv
        have hv2 : (if ppBetter c prev then some c else some prev) = some v := hv
        obtain ⟨hkeyp, hPp, hdomp⟩ := hstore _ _ hprev
        by_cases hb : ppBetter c prev
        · rw [if_pos hb] at hv2
          injection hv2 with hv2
          subst hv2
          refine ⟨hk, Or.inr rfl, ?_⟩
          intro x hx hkey
          rcases hx with hx | rfl
          · exact ppBetter_step (hdomp x hx (hkey.trans hk)) hb
          · exact ppBetter_irrefl _
        · rw [if_neg hb] at hv2
          injection hv2 with hv2
          subst hv2
          refine ⟨hk.trans hkeyp, Or.inl hPp, ?_⟩
          intro x hx hkey
          rcases hx with hx | rfl
          · exact hdomp x hx (hkey.trans hk)
          · simpa using hb
    · rw [if_neg hk] at hv
      obtain ⟨hkeyv, hPv, hdomv⟩ := hstore _ _ hv
      refine ⟨hkeyv, Or.inl hPv, ?_⟩
      intro x hx hkey
      rcases hx with hx | rfl
      · exact hdomv x hx hkey
      · exact absurd hkey.symm hk
  · intro x hx
    rw [show lookupKV (ppKey x) (upsertWith (ppKey c) c ppBetter m) =
        if ppKey x = ppKey c then
          match lookupKV (ppKey c) m with
          | none => some c
          | some prev => if ppBetter c prev then some c else some prev
        else lookupKV (ppKey x) m from lookupKV_upsertWith _ _ _ _ _]
    by_cases hk : ppKey x = ppKey c
    · rw [if_pos hk]
      rcases lookupKV (ppKey c) m with _ | prev
      · exact ⟨c, rfl⟩
      · by_cases hb : ppBetter c prev
        · simp [hb]
        · simp [hb]
    · rw [if_neg hk]
      rcases hx with hx | rfl
      · exact hcover x hx
      · exact absurd rfl hk

theorem S1Inv_congr {P Q : Contact → Prop} (hPQ : ∀ x, P x ↔ Q x)
    {m : List ((String × String × String × String) × Contact)}
    (h : S1Inv P m) : S1Inv Q m := by
  obtain ⟨hnd, hstore, hcover⟩ := h
  refine ⟨hnd, ?_, ?_⟩
  · intro k v hv
    obtain ⟨h1, h2, h3⟩ := hstore k v hv
    exact ⟨h1, (hPQ v).mp h2, fun x hx => h3 x ((hPQ x).mpr hx)⟩
  · intro x hx
    exact hcover x ((hPQ x).mpr hx)

theorem S1Inv_foldl {P : Contact → Prop}
    {m : List ((String × String × String × String) × Contact)}
    (h : S1Inv P m) (cs : List Contact) :
    S1Inv (fun x => P x ∨ x ∈ cs)
      (cs.foldl (fun acc c => upsertWith (ppKey c) c ppBetter acc) m) := by
  induction cs generalizing P m with
  | nil => exact S1Inv_congr (fun x => by simp) h
  | cons hd tl ih =>
    have h1 := S1Inv_upsert h hd
    have h2 := ih h1
    refine S1Inv_congr (fun x => ?_) h2
    simp only [List.mem_cons]
    tauto

theorem stage1_inv (cs : List Contact) : S1Inv (fun x => x ∈ cs) (ppStage1 cs) := by
  have h0 : S1Inv (fun _ => False) [] := by
    refine ⟨List.nodup_nil, ?_, ?_⟩
    · intro k v hv
      simp [lookupKV] at hv
    · intro x hx
      exact False.elim hx
  exact S1Inv_congr (fun x => by simp) (S1Inv_foldl h0 cs)

theorem lookupKV_chosenUpd (kp : String × String) (t : String) (c : Contact)
    (l : List ((String × String) × ChosenPair)) (k2 : String × String) :
    lookupKV k2 (chosenUpd kp t c l) =
      if k2 = kp then some (chosenSlot t c ((lookupKV kp l).getD {}))
      else lookupKV k2 l := by
  induction l with
  | nil =>
    by_cases h : k2 = kp
    · simp [chosenUpd, lookupKV, h]
    · have h2 : ¬ kp = k2 := fun hh => h hh.symm
      simp [chosenUpd, lookupKV, h, h2]
  | cons hd tl ih =>
    rcases hd with ⟨kh, dh⟩
    by_cases hk : kh = kp
    · subst hk
      by_cases h2 : kh = k2
      · subst h2
        simp [chosenUpd, lookupKV]
      · have h2b : ¬ k2 = kh := fun hh => h2 hh.symm
        simp [chosenUpd, lookupKV, h2, h2b]
    · by_cases h2 : kh = k2
      · subst h2
        simp [chosenUpd, lookupKV, hk]
      · simp [chosenUpd, lookupKV, hk, h2, ih]

theorem keys_chosenUpd (kp : String × String) (t : String) (c : Contact)
    (l : List ((String × String) × ChosenPair)) :
    (chosenUpd kp t c l).map Prod.fst =
      if kp ∈ l.map Prod.fst then l.map Prod.fst else l.map Prod.fst ++ [kp] := by
  induction l with
  | nil => simp [chosenUpd]
  | cons hd tl ih =>
    rcases hd with ⟨kh, dh⟩
    by_cases hk : kh = kp
    · subst hk
      simp [chosenUpd]
    · have hne : ¬ kp = kh := fun hh => hk hh.symm
      by_cases hmem : kp ∈ tl.map Prod.fst <;>
        simp [chosenUpd, hk, hmem, hne, ih]

theorem nodup_chosenUpd (kp : String × String) (t : String) (c : Contact)
    {l : List ((String × String) × ChosenPair)}
    (h : (l.map Prod.fst).Nodup) : ((chosenUpd kp t c l).map Prod.fst).Nodup := by
  rw [keys_chosenUpd]
  by_cases hmem : kp ∈ l.map Prod.fst
  · simpa [hmem] using h
  · simp only [hmem, if_false]
    exact List.Nodup.append h (List.nodup_singleton kp) (by simpa using hmem)

theorem chosenSlot_email (c : Contact) (d : ChosenPair) :
    (chosenSlot "email" c d).email =
      some (match d.email with
        | none => c
        | some e => if ppBetter c e then c else e) ∧
    (chosenSlot "email" c d).phone = d.phone := by
  unfold chosenSlot
  rcases d with ⟨de, dp⟩
  rcases de with _ | e
  · simp
  · by_cases hb : ppBetter c e <;> simp [hb]

theorem chosenSlot_phone (t : String) (ht : t ≠ "email") (c : Contact) (d : ChosenPair) :
    (chosenSlot t c d).phone =
      some (match d.phone with
        | none => c
        | some e => if ppBetter c e then c else e) ∧
    (chosenSlot t c d).email = d.email := by
  unfold chosenSlot
  rcases d with ⟨de, dp⟩
  rcases dp with _ | e
  · simp [ht]
  · by_cases hb : ppBetter c e <;> simp [ht, hb]

theorem S2Inv_step {Q : (String × String × String × String) × Contact → Prop}
    {st : List ((String × String) × ChosenPair) × List (String × String × String) × List Contact}
    (h : S2Inv Q st) (kv : (String × String × String × String) × Contact) :
    S2Inv (fun y => Q y ∨ y = kv) (ppStage2Step st kv) := by
  obtain ⟨hnd, hslots, hce, hcp, houts⟩ := h
  unfold ppStage2Step
  by_cases hE : kv.1.2.2.1 = "email"
  · rw [if_pos (by simp [hE])]
    refine ⟨nodup_chosenUpd _ _ _ hnd, ?_, ?_, ?_, ?_⟩
    · intro kp d hd
      rw [lookupKV_chosenUpd] at hd
      by_cases hk : kp = (kv.1.1, kv.1.2.1)
      · rw [if_pos hk] at hd
        rw [hE] at hd
        rcases hD0 : lookupKV (kv.1.1, kv.1.2.1) st.1 with _ | dOld
        · rw [hD0] at hd
          have hd2 : some (chosenSlot "email" kv.2 {}) = some d := hd
          injection hd2 with hd2
          subst hd2
          obtain ⟨hse, hsp⟩ := chosenSlot_email kv.2 {}
          constructor
          · intro e he
            rw [hse] at he
            have he2 : some kv.2 = some e := he
            injection he2 with he2
            subst he2
            refine ⟨⟨kv, Or.inr rfl, rfl, hE, hk.symm⟩, ?_⟩
            intro kv2 hq2 ht2 hp2
            rcases hq2 with hq2 | rfl
            · obtain ⟨dS, hdS, hsome⟩ := hce kv2 hq2 ht2
              rw [hp2, hk, hD0] at hdS
              cases hdS
            · exact ppBetter_irrefl _
          · intro e he
            rw [hsp] at he
            have he2 : (none : Option Contact) = some e := he
            cases he2
        · rw [hD0] at hd
          have hd2 : some (chosenSlot "email" kv.2 dOld) = some d := hd
          injection hd2 with hd2
          subst hd2
          obtain ⟨hOldE, hOldP⟩ := hslots _ dOld hD0
          obtain ⟨hse, hsp⟩ := chosenSlot_email kv.2 dOld
          constructor
          · intro e he
            rw [hse] at he
            injection he with he
            rcases hDe : dOld.email with _ | e0
            · rw [hDe] at he
              have he2 : kv.2 = e := he
              subst he2
              refine ⟨⟨kv, Or.inr rfl, rfl, hE, hk.symm⟩, ?_⟩
              intro kv2 hq2 ht2 hp2
              rcases hq2 with hq2 | rfl
              · obtain ⟨dS, hdS, hsome⟩ := hce kv2 hq2 ht2
                rw [hp2, hk, hD0] at hdS
                injection hdS with hdS
                rw [← hdS] at hsome
                rw [hDe] at hsome
                cases hsome
              · exact ppBetter_irrefl _
            · rw [hDe] at he
              have he2 : (if ppBetter kv.2 e0 then kv.2 else e0) = e := he
              obtain ⟨hExE, hDomE⟩ := hOldE e0 hDe
              by_cases hb : ppBetter kv.2 e0
              · rw [if_pos hb] at he2
                subst he2
                refine ⟨⟨kv, Or.inr rfl, rfl, hE, hk.symm⟩, ?_⟩
                intro kv2 hq2 ht2 hp2
                rcases hq2 with hq2 | rfl
                · exact ppBetter_step (hDomE kv2 hq2 ht2 (hp2.trans hk)) hb
                · exact ppBetter_irrefl _
              · rw [if_neg hb] at he2
                subst he2
                obtain ⟨kvE, hkvE, hkvE2, hkvE3, hkvE4⟩ := hExE
                refine ⟨⟨kvE, Or.inl hkvE, hkvE2, hkvE3, hkvE4.trans hk.symm⟩, ?_⟩
                intro kv2 hq2 ht2 hp2
                rcases hq2 with hq2 | rfl
                · exact hDomE kv2 hq2 ht2 (hp2.trans hk)
                · simpa using hb
          · intro e he
            rw [hsp] at he
            obtain ⟨hExP, hDomP⟩ := hOldP e he
            obtain ⟨kvP, hkvP, hkvP2, hkvP3, hkvP4⟩ := hExP
            refine ⟨⟨kvP, Or.inl hkvP, hkvP2, hkvP3, hkvP4.trans hk.symm⟩, ?_⟩
            intro kv2 hq2 ht2 hp2
            rcases hq2 with hq2 | rfl
            · exact hDomP kv2 hq2 ht2 (hp2.trans hk)
            · exact absurd (hE.symm.trans ht2) (by decide)
      · rw [if_neg hk] at hd
        obtain ⟨hOldE, hOldP⟩ := hslots kp d hd
        constructor
        · intro e he
          obtain ⟨hEx, hDom⟩ := hOldE e he
          obtain ⟨kvE, hkvE, hkvE2, hkvE3, hkvE4⟩ := hEx
          refine ⟨⟨kvE, Or.inl hkvE, hkvE2, hkvE3, hkvE4⟩, ?_⟩
          intro kv2 hq2 ht2 hp2
          rcases hq2 with hq2 | rfl
          · exact hDom kv2 hq2 ht2 hp2
          · exact absurd hp2.symm hk
        · intro e he
          obtain ⟨hEx, hDom⟩ := hOldP e he
          obtain ⟨kvP, hkvP, hkvP2, hkvP3, hkvP4⟩ := hEx
          refine ⟨⟨kvP, Or.inl hkvP, hkvP2, hkvP3, hkvP4⟩, ?_⟩
          intro kv2 hq2 ht2 hp2
          rcases hq2 with hq2 | rfl
          · exact hDom kv2 hq2 ht2 hp2
          · exact absurd hp2.symm hk
    · intro kv2 hq2 ht2
      rw [lookupKV_chosenUpd]
      by_cases hp2 : ((kv2.1.1, kv2.1.2.1) : String × String) = (kv.1.1, kv.1.2.1)
      · rw [if_pos hp2, hE]
        refine ⟨_, rfl, ?_⟩
        rw [(chosenSlot_email kv.2 _).1]
        rfl
      · rw [if_neg hp2]
        rcases hq2 with hq2 | rfl
        · exact hce kv2 hq2 ht2
        · exact absurd rfl hp2
    · intro kv2 hq2 ht2
      rcases hq2 with hq2 | rfl
      · obtain ⟨dS, hdS, hsome⟩ := hcp kv2 hq2 ht2
        rw [lookupKV_chosenUpd]
        by_cases hp2 : ((kv2.1.1, kv2.1.2.1) : String × String) = (kv.1.1, kv.1.2.1)
        · rw [if_pos hp2, hE]
          refine ⟨_, rfl, ?_⟩
          rw [(chosenSlot_email kv.2 _).2]
          rw [hp2] at hdS
          rw [hdS]
          exact hsome
        · rw [if_neg hp2]
          exact ⟨dS, hdS, hsome⟩
      · exact absurd (hE.symm.trans ht2) (by decide)
    · intro x hx
      obtain ⟨kv2, hq2, hrest⟩ := houts x hx
      exact ⟨kv2, Or.inl hq2, hrest⟩
  · by_cases hP : kv.1.2.2.1 = "phone"
    · rw [if_pos (by simp [hP])]
      refine ⟨nodup_chosenUpd _ _ _ hnd, ?_, ?_, ?_, ?_⟩
      · intro kp d hd
        rw [lookupKV_chosenUpd] at hd
        by_cases hk : kp = (kv.1.1, kv.1.2.1)
        · rw [if_pos hk] at hd
          rcases hD0 : lookupKV (kv.1.1, kv.1.2.1) st.1 with _ | dOld
          · rw [hD0] at hd
            have hd2 : some (chosenSlot kv.1.2.2.1 kv.2 {}) = some d := hd
            injection hd2 with hd2
            subst hd2
            obtain ⟨hsp, hse⟩ := chosenSlot_phone kv.1.2.2.1 hE kv.2 {}
            constructor
            · intro e he
              rw [hse] at he
              have he2 : (none : Option Contact) = some e := he
              cases he2
            · intro e he
              rw [hsp] at he
              have he2 : some kv.2 = some e := he
              injection he2 with he2
              subst he2
              refine ⟨⟨kv, Or.inr rfl, rfl, hP, hk.symm⟩, ?_⟩
              intro kv2 hq2 ht2 hp2
              rcases hq2 with hq2 | rfl
              · obtain ⟨dS, hdS, hsome⟩ := hcp kv2 hq2 ht2
                rw [hp2, hk, hD0] at hdS
                cases hdS
              · exact ppBetter_irrefl _
          · rw [hD0] at hd
            have hd2 : some (chosenSlot kv.1.2.2.1 kv.2 dOld) = some d := hd
            injection hd2 with hd2
            subst hd2
            obtain ⟨hOldE, hOldP⟩ := hslots _ dOld hD0
            obtain ⟨hsp, hse⟩ := chosenSlot_phone kv.1.2.2.1 hE kv.2 dOld
            constructor
            · intro e he
              rw [hse] at he
              obtain ⟨hExE, hDomE⟩ := hOldE e he
              obtain ⟨kvE, hkvE, hkvE2, hkvE3, hkvE4⟩ := hExE
              refine ⟨⟨kvE, Or.inl hkvE, hkvE2, hkvE3, hkvE4.trans hk.symm⟩, ?_⟩
              intro kv2 hq2 ht2 hp2
              rcases hq2 with hq2 | rfl
              · exact hDomE kv2 hq2 ht2 (hp2.trans hk)
              · exact absurd (hP.symm.trans ht2) (by decide)
            · intro e he
              rw [hsp] at he
              injection he with he
              rcases hDe : dOld.phone with _ | e0
              · rw [hDe] at he
                have he2 : kv.2 = e := he
                subst he2
                refine ⟨⟨kv, Or.inr rfl, rfl, hP, hk.symm⟩, ?_⟩
                intro kv2 hq2 ht2 hp2
                rcases hq2 with hq2 | rfl
                · obtain ⟨dS, hdS, hsome⟩ := hcp kv2 hq2 ht2
                  rw [hp2, hk, hD0] at hdS
                  injection hdS with hdS
                  rw [← hdS] at hsome
                  rw [hDe] at hsome
                  cases hsome
                · exact ppBetter_irrefl _
              · rw [hDe] at he
                have he2 : (if ppBetter kv.2 e0 then kv.2 else e0) = e := he
                obtain ⟨hExP, hDomP⟩ := hOldP e0 hDe
                by_cases hb : ppBetter kv.2 e0
                · rw [if_pos hb] at he2
                  subst he2
                  refine ⟨⟨kv, Or.inr rfl, rfl, hP, hk.symm⟩, ?_⟩
                  intro kv2 hq2 ht2 hp2
                  rcases hq2 with hq2 | rfl
                  · exact ppBetter_step (hDomP kv2 hq2 ht2 (hp2.trans hk)) hb
                  · exact ppBetter_irrefl _
                · rw [if_neg hb] at he2
                  subst he2
                  obtain ⟨kvP, hkvP, hkvP2, hkvP3, hkvP4⟩ := hExP
                  refine ⟨⟨kvP, Or.inl hkvP, hkvP2, hkvP3, hkvP4.trans hk.symm⟩, ?_⟩
                  intro kv2 hq2 ht2 hp2
                  rcases hq2 with hq2 | rfl
                  · exact hDomP kv2 hq2 ht2 (hp2.trans hk)
                  · simpa using hb
        · rw [if_neg hk] at hd
          obtain ⟨hOldE, hOldP⟩ := hslots kp d hd
          constructor
          · intro e he
            obtain ⟨hEx, hDom⟩ := hOldE e he
            obtain ⟨kvE, hkvE, hkvE2, hkvE3, hkvE4⟩ := hEx
            refine ⟨⟨kvE, Or.inl hkvE, hkvE2, hkvE3, hkvE4⟩, ?_⟩
            intro kv2 hq2 ht2 hp2
            rcases hq2 with hq2 | rfl
            · exact hDom kv2 hq2 ht2 hp2
            · exact absurd hp2.symm hk
          · intro e he
            obtain ⟨hEx, hDom⟩ := hOldP e he
            obtain ⟨kvP, hkvP, hkvP2, hkvP3, hkvP4⟩ := hEx
            refine ⟨⟨kvP, Or.inl hkvP, hkvP2, hkvP3, hkvP4⟩, ?_⟩
            intro kv2 hq2 ht2 hp2
            rcases hq2 with hq2 | rfl
            · exact hDom kv2 hq2 ht2 hp2
            · exact absurd hp2.symm hk
      · intro kv2 hq2 ht2
        rcases hq2 with hq2 | rfl
        · obtain ⟨dS, hdS, hsome⟩ := hce kv2 hq2 ht2
          rw [lookupKV_chosenUpd]
          by_cases hp2 : ((kv2.1.1, kv2.1.2.1) : String × String) = (kv.1.1, kv.1.2.1)
          · rw [if_pos hp2]
            refine ⟨_, rfl, ?_⟩
            rw [(chosenSlot_phone kv.1.2.2.1 hE kv.2 _).2]
            rw [hp2] at hdS
            rw [hdS]
            exact hsome
          · rw [if_neg hp2]
            exact ⟨dS, hdS, hsome⟩
        · exact absurd (hP.symm.trans ht2) (by decide)
      · intro kv2 hq2 ht2
        rw [lookupKV_chosenUpd]
        by_cases hp2 : ((kv2.1.1, kv2.1.2.1) : String × String) = (kv.1.1, kv.1.2.1)
        · rw [if_pos hp2]
          refine ⟨_, rfl, ?_⟩
          rw [(chosenSlot_phone kv.1.2.2.1 hE kv.2 _).1]
          rfl
        · rw [if_neg hp2]
          rcases hq2 with hq2 | rfl
          · exact hcp kv2 hq2 ht2
          · exact absurd rfl hp2
      · intro x hx
        obtain ⟨kv2, hq2, hrest⟩ := houts x hx
        exact ⟨kv2, Or.inl hq2, hrest⟩
    · rw [if_neg (by simp [hE, hP])]
      by_cases hseen : st.2.1.contains (kv.1.1, kv.1.2.1, kv.1.2.2.2)
      · rw [if_pos hseen]
        refine ⟨hnd, ?_, ?_, ?_, ?_⟩
        · intro kp d hd
          obtain ⟨hOldE, hOldP⟩ := hslots kp d hd
          constructor
          · intro e he
            obtain ⟨hEx, hDom⟩ := hOldE e he
            obtain ⟨kvE, hkvE, hkvE2, hkvE3, hkvE4⟩ := hEx
            refine ⟨⟨kvE, Or.inl hkvE, hkvE2, hkvE3, hkvE4⟩, ?_⟩
            intro kv2 hq2 ht2 hp2
            rcases hq2 with hq2 | rfl
            · exact hDom kv2 hq2 ht2 hp2
            · exact absurd ht2 hE
          · intro e he
            obtain ⟨hEx, hDom⟩ := hOldP e he
            obtain ⟨kvP, hkvP, hkvP2, hkvP3, hkvP4⟩ := hEx
            refine ⟨⟨kvP, Or.inl hkvP, hkvP2, hkvP3, hkvP4⟩, ?_⟩
            intro kv2 hq2 ht2 hp2
            rcases hq2 with hq2 | rfl
            · exact hDom kv2 hq2 ht2 hp2
            · exact absurd ht2 hP
        · intro kv2 hq2 ht2
          rcases hq2 with hq2 | rfl
          · exact hce kv2 hq2 ht2
          · exact absurd ht2 hE
        · intro kv2 hq2 ht2
          rcases hq2 with hq2 | rfl
          · exact hcp kv2 hq2 ht2
          · exact absurd ht2 hP
        · intro x hx
          obtain ⟨kv2, hq2, hrest⟩ := houts x hx
          exact ⟨kv2, Or.inl hq2, hrest⟩
      · rw [if_neg hseen]
        refine ⟨hnd, ?_, ?_, ?_, ?_⟩
        · intro kp d hd
          obtain ⟨hOldE, hOldP⟩ := hslots kp d hd
          constructor
          · intro e he
            obtain ⟨hEx, hDom⟩ := hOldE e he
            obtain ⟨kvE, hkvE, hkvE2, hkvE3, hkvE4⟩ := hEx
            refine ⟨⟨kvE, Or.inl hkvE, hkvE2, hkvE3, hkvE4⟩, ?_⟩
            intro kv2 hq2 ht2 hp2
            rcases hq2 with hq2 | rfl
            · exact hDom kv2 hq2 ht2 hp2
            · exact absurd ht2 hE
          · intro e he
            obtain ⟨hEx, hDom⟩ := hOldP e he
            obtain ⟨kvP, hkvP, hkvP2, hkvP3, hkvP4⟩ := hEx
            refine ⟨⟨kvP, Or.inl hkvP, hkvP2, hkvP3, hkvP4⟩, ?_⟩
            intro kv2 hq2 ht2 hp2
            rcases hq2 with hq2 | rfl
            · exact hDom kv2 hq2 ht2 hp2
            · exact absurd ht2 hP
        · intro kv2 hq2 ht2
          rcases hq2 with hq2 | rfl
          · exact hce kv2 hq2 ht2
          · exact absurd ht2 hE
        · intro kv2 hq2 ht2
          rcases hq2 with hq2 | rfl
          · exact hcp kv2 hq2 ht2
          · exact absurd ht2 hP
        · intro x hx
          rcases List.mem_append.mp hx with hx | hx
          · obtain ⟨kv2, hq2, hrest⟩ := houts x hx
            exact ⟨kv2, Or.inl hq2, hrest⟩
          · have hx2 : x = kv.2 := by simpa using hx
            subst hx2
            exact ⟨kv, Or.inr rfl, rfl, hE, hP⟩

theorem S2Inv_congr {Q R : (String × String × String × String) × Contact → Prop}
    (hQR : ∀ y, Q y ↔ R y)
    {st : List ((String × String) × ChosenPair) × List (String × String × String) × List Contact}
    (h : S2Inv Q st) : S2Inv R st := by
  obtain ⟨hnd, hslots, hce, hcp, houts⟩ := h
  refine ⟨hnd, ?_, ?_, ?_, ?_⟩
  · intro kp d hd
    obtain ⟨hOldE, hOldP⟩ := hslots kp d hd
    constructor
    · intro e he
      obtain ⟨⟨kvE, h1, h2, h3, h4⟩, hDom⟩ := hOldE e he
      exact ⟨⟨kvE, (hQR kvE).mp h1, h2, h3, h4⟩,
        fun kv2 hq2 => hDom kv2 ((hQR kv2).mpr hq2)⟩
    · intro e he
      obtain ⟨⟨kvP, h1, h2, h3, h4⟩, hDom⟩ := hOldP e he
      exact ⟨⟨kvP, (hQR kvP).mp h1, h2, h3, h4⟩,
        fun kv2 hq2 => hDom kv2 ((hQR kv2).mpr hq2)⟩
  · exact fun kv2 hq2 => hce kv2 ((hQR kv2).mpr hq2)
  · exact fun kv2 hq2 => hcp kv2 ((hQR kv2).mpr hq2)
  · intro x hx
    obtain ⟨kv2, hq2, hrest⟩ := houts x hx
    exact ⟨kv2, (hQR kv2).mp hq2, hrest⟩

theorem S2Inv_foldl {Q : (String × String × String × String) × Contact → Prop}
    {st : List ((String × String) × ChosenPair) × List (String × String × String) × List Contact}
    (h : S2Inv Q st) (l : List ((String × String × String × String) × Contact)) :
    S2Inv (fun y => Q y ∨ y ∈ l) (l.foldl ppStage2Step st) := by
  induction l generalizing Q st with
  | nil => exact S2Inv_congr (fun y => by simp) h
  | cons hd tl ih =>
    have h1 := S2Inv_step h hd
    have h2 := ih h1
    refine S2Inv_congr (fun y => ?_) h2
    simp only [List.mem_cons]
    tauto

theorem stage2_inv (l : List ((String × String × String × String) × Contact)) :
    S2Inv (fun y => y ∈ l) (l.foldl ppStage2Step ([], [], [])) := by
  have h0 : S2Inv (fun _ => False) ([], [], []) := by
    refine ⟨List.nodup_nil, ?_, ?_, ?_, ?_⟩
    · intro kp d hd
      simp [lookupKV] at hd
    · intro kv2 hq2
      exact False.elim hq2
    · intro kv2 hq2
      exact False.elim hq2
    · intro x hx
      cases hx
  exact S2Inv_congr (fun y => by simp) (S2Inv_foldl h0 l)

theorem value_eq_email_iff (t : ContactType) : t.value = "email" ↔ t = ContactType.email := by
  cases t <;> decide

theorem value_eq_phone_iff (t : ContactType) : t.value = "phone" ↔ t = ContactType.phone := by
  cases t <;> decide

theorem stage2_entry_facts (cs : List Contact) :
    ∀ kd ∈ ((ppStage1 cs).foldl ppStage2Step ([], [], [])).1,
      (∀ e, kd.2.email = some e →
        ppPair e = kd.1 ∧ e.contact_type = ContactType.email ∧ e ∈ cs ∧
        ∀ c2 ∈ cs, c2.contact_type = ContactType.email → ppPair c2 = kd.1 →
          ppBetter c2 e = false) ∧
      (∀ e, kd.2.phone = some e →
        ppPair e = kd.1 ∧ e.contact_type = ContactType.phone ∧ e ∈ cs ∧
        ∀ c2 ∈ cs, c2.contact_type = ContactType.phone → ppPair c2 = kd.1 →
          ppBetter c2 e = false) := by
  obtain ⟨hnd1, hstore1, hcover1⟩ := stage1_inv cs
  obtain ⟨hnd2, hslots, hce2, hcp2, houts2⟩ := stage2_inv (ppStage1 cs)
  intro kd hkd
  have hlkd := mem_lookupKV hnd2 hkd
  obtain ⟨hE, hP⟩ := hslots kd.1 kd.2 hlkd
  constructor
  · intro e he
    obtain ⟨⟨kv, hkvmem, hkv2, hkv3, hkv4⟩, hdom2⟩ := hE e he
    have hlkv := mem_lookupKV hnd1 hkvmem
    obtain ⟨hkey, horig, _⟩ := hstore1 kv.1 kv.2 hlkv
    have hkeye : kv.1 = ppKey e := by rw [hkey, hkv2]
    have hpaire : ppPair e = kd.1 := by
      rw [show ppPair e = ((ppKey e).1, (ppKey e).2.1) from rfl, ← hkeye]
      exact hkv4
    have htypee : e.contact_type = ContactType.email := by
      have : (ppKey e).2.2.1 = "email" := by rw [← hkeye]; exact hkv3
      exact (value_eq_email_iff e.contact_type).mp this
    refine ⟨hpaire, htypee, hkv2 ▸ horig, ?_⟩
    intro c2 hc2 ht2 hp2
    obtain ⟨v, hv⟩ := hcover1 c2 hc2
    obtain ⟨hkeyv, horigv, hdomv⟩ := hstore1 _ v hv
    have h1 : ppBetter c2 v = false := hdomv c2 hc2 rfl
    have hmemv : ((ppKey c2, v) : (String × String × String × String) × Contact) ∈
        ppStage1 cs := lookupKV_mem hv
    have htypv : ((ppKey c2, v) : (String × String × String × String) × Contact).1.2.2.1 =
        "email" := by
      show c2.contact_type.value = "email"
      rw [ht2]
      rfl
    have hpairv :
        ((((ppKey c2, v) : (String × String × String × String) × Contact).1.1,
          ((ppKey c2, v) : (String × String × String × String) × Contact).1.2.1) :
            String × String) = kd.1 := by
      show ppPair c2 = kd.1
      exact hp2
    have h2 : ppBetter v e = false := hdom2 (ppKey c2, v) hmemv htypv hpairv
    exact ppBetter_chain h1 h2
  · intro e he
    obtain ⟨⟨kv, hkvmem, hkv2, hkv3, hkv4⟩, hdom2⟩ := hP e he
    have hlkv := mem_lookupKV hnd1 hkvmem
    obtain ⟨hkey, horig, _⟩ := hstore1 kv.1 kv.2 hlkv
    have hkeye : kv.1 = ppKey e := by rw [hkey, hkv2]
    have hpaire : ppPair e = kd.1 := by
      rw [show ppPair e = ((ppKey e).1, (ppKey e).2.1) from rfl, ← hkeye]
      exact hkv4
    have htypee : e.contact_type = ContactType.phone := by
      have : (ppKey e).2.2.1 = "phone" := by rw [← hkeye]; exact hkv3
      exact (value_eq_phone_iff e.contact_type).mp this
    refine ⟨hpaire, htypee, hkv2 ▸ horig, ?_⟩
    intro c2 hc2 ht2 hp2
    obtain ⟨v, hv⟩ := hcover1 c2 hc2
    obtain ⟨hkeyv, horigv, hdomv⟩ := hstore1 _ v hv
    have h1 : ppBetter c2 v = false := hdomv c2 hc2 rfl
    have hmemv : ((ppKey c2, v) : (String × String × String × String) × Contact) ∈
        ppStage1 cs := lookupKV_mem hv
    have htypv : ((ppKey c2, v) : (String × String × String × String) × Contact).1.2.2.1 =
        "phone" := by
      show c2.contact_type.value = "phone"
      rw [ht2]
      rfl
    have hpairv :
        ((((ppKey c2, v) : (String × String × String × String) × Contact).1.1,
          ((ppKey c2, v) : (String × String × String × String) × Contact).1.2.1) :
            String × String) = kd.1 := by
      show ppPair c2 = kd.1
      exact hp2
    have h2 : ppBetter v e = false := hdom2 (ppKey c2, v) hmemv htypv hpairv
    exact ppBetter_chain h1 h2

theorem stage2_out_facts (cs : List Contact) :
    ∀ x ∈ ((ppStage1 cs).foldl ppStage2Step ([], [], [])).2.2,
      x.contact_type ≠ ContactType.email ∧ x.contact_type ≠ ContactType.phone ∧ x ∈ cs := by
  obtain ⟨hnd1, hstore1, hcover1⟩ := stage1_inv cs
  obtain ⟨hnd2, hslots, hce2, hcp2, houts2⟩ := stage2_inv (ppStage1 cs)
  intro x hx
  obtain ⟨kv, hkvmem, hkv2, hkv3, hkv4⟩ := houts2 x hx
  have hlkv := mem_lookupKV hnd1 hkvmem
  obtain ⟨hkey, horig, _⟩ := hstore1 kv.1 kv.2 hlkv
  have hkeyx : kv.1 = ppKey x := by rw [hkey, hkv2]
  have hval : (ppKey x).2.2.1 = x.contact_type.value := rfl
  refine ⟨?_, ?_, hkv2 ▸ horig⟩
  · intro ht
    apply hkv3
    rw [hkeyx, hval, ht]
    rfl
  · intro ht
    apply hkv4
    rw [hkeyx, hval, ht]
    rfl

theorem slots_email_filter_nil (kp : String × String)
    (l : List ((String × String) × ChosenPair))
    (hknot : kp ∉ l.map Prod.fst)
    (h : ∀ kd ∈ l,
      (∀ e, kd.2.email = some e → ppPair e = kd.1 ∧ e.contact_type = ContactType.email) ∧
      (∀ e, kd.2.phone = some e → ppPair e = kd.1 ∧ e.contact_type = ContactType.phone)) :
    ((l.map (fun kd => kd.2.email.toList ++ kd.2.phone.toList)).flatten.filter
      (fun c => ppPair c = kp ∧ c.contact_type = ContactType.email)).length = 0 := by
  induction l with
  | nil => simp
  | cons hd tl ih =>
    simp only [List.map_cons, List.flatten_cons]
    have hkp : hd.1 ≠ kp := by
      intro hh
      exact hknot (by simp [← hh])
    have hh := h hd (List.mem_cons_self _ _)
    have hhead : ((hd.2.email.toList ++ hd.2.phone.toList).filter
        (fun c => ppPair c = kp ∧ c.contact_type = ContactType.email)) = [] := by
      rw [List.filter_eq_nil]
      intro c hc
      simp only [decide_eq_true_eq, not_and]
      intro hpp hty
      rcases List.mem_append.mp hc with hc | hc
      · rcases hde : hd.2.email with _ | e
        · rw [hde] at hc
          cases hc
        · rw [hde] at hc
          have hce : c = e := by simpa using hc
          subst hce
          exact hkp ((hh.1 c hde).1 ▸ hpp)
      · rcases hdp : hd.2.phone with _ | p
        · rw [hdp] at hc
          cases hc
        · rw [hdp] at hc
          have hce : c = p := by simpa using hc
          subst hce
          have h1 := (hh.2 c hdp).2
          rw [h1] at hty
          cases hty
    rw [List.filter_append, hhead]
    simp only [List.nil_append]
    exact ih (fun hh2 => hknot (List.mem_cons_of_mem _ hh2))
      (fun kd hkd => h kd (List.mem_cons_of_mem _ hkd))

theorem slots_email_filter_le_one (kp : String × String)
    (l : List ((String × String) × ChosenPair))
    (hnd : (l.map Prod.fst).Nodup)
    (h : ∀ kd ∈ l,
      (∀ e, kd.2.email = some e → ppPair e = kd.1 ∧ e.contact_type = ContactType.email) ∧
      (∀ e, kd.2.phone = some e → ppPair e = kd.1 ∧ e.contact_type = ContactType.phone)) :
    ((l.map (fun kd => kd.2.email.toList ++ kd.2.phone.toList)).flatten.filter
      (fun c => ppPair c = kp ∧ c.contact_type = ContactType.email)).length ≤ 1 := by
  induction l with
  | nil => simp
  | cons hd tl ih =>
    simp only [List.map_cons, List.flatten_cons]
    rw [List.filter_append, List.length_append]
    have hh := h hd (List.mem_cons_self _ _)
    have hphone : (hd.2.phone.toList.filter
        (fun c => ppPair c = kp ∧ c.contact_type = ContactType.email)) = [] := by
      rw [List.filter_eq_nil]
      intro c hc
      simp only [decide_eq_true_eq, not_and]
      intro hpp hty
      rcases hdp : hd.2.phone with _ | p
      · rw [hdp] at hc
        cases hc
      · rw [hdp] at hc
        have hce : c = p := by simpa using hc
        subst hce
        have h1 := (hh.2 c hdp).2
        rw [h1] at hty
        cases hty
    have hhead : ((hd.2.email.toList ++ hd.2.phone.toList).filter
        (fun c => ppPair c = kp ∧ c.contact_type = ContactType.email)).length ≤ 1 := by
      rw [List.filter_append, hphone, List.length_append]
      simp only [List.length_nil, Nat.add_zero]
      calc (hd.2.email.toList.filter _).length ≤ hd.2.email.toList.length :=
            List.length_filter_le _ _
        _ ≤ 1 := by rcases hd.2.email with _ | e <;> simp
    by_cases hkp : hd.1 = kp
    · have hknot : kp ∉ tl.map Prod.fst := by
        rw [← hkp]
        exact (List.nodup_cons.mp (by simpa using hnd)).1
      have htl := slots_email_filter_nil kp tl hknot
        (fun kd hkd => h kd (List.mem_cons_of_mem _ hkd))
      omega
    · have hhead0 : ((hd.2.email.toList ++ hd.2.phone.toList).filter
          (fun c => ppPair c = kp ∧ c.contact_type = ContactType.email)) = [] := by
        rw [List.filter_eq_nil]
        intro c hc
        simp only [decide_eq_true_eq, not_and]
        intro hpp hty
        rcases List.mem_append.mp hc with hc | hc
        · rcases hde : hd.2.email with _ | e
          · rw [hde] at hc
            cases hc
          · rw [hde] at hc
            have hce : c = e := by simpa using hc
            subst hce
            exact hkp ((hh.1 c hde).1 ▸ hpp)
        · rcases hdp : hd.2.phone with _ | p
          · rw [hdp] at hc
            cases hc
          · rw [hdp] at hc
            have hce : c = p := by simpa using hc
            subst hce
            have h1 := (hh.2 c hdp).2
            rw [h1] at hty
            cases hty
      rw [hhead0]
      simp only [List.length_nil, Nat.zero_add]
      exact ih (List.nodup_cons.mp (by simpa using hnd)).2
        (fun kd hkd => h kd (List.mem_cons_of_mem _ hkd))

theorem slots_phone_filter_nil (kp : String × String)
    (l : List ((String × String) × ChosenPair))
    (hknot : kp ∉ l.map Prod.fst)
    (h : ∀ kd ∈ l,
      (∀ e, kd.2.email = some e → ppPair e = kd.1 ∧ e.contact_type = ContactType.email) ∧
      (∀ e, kd.2.phone = some e → ppPair e = kd.1 ∧ e.contact_type = ContactType.phone)) :
    ((l.map (fun kd => kd.2.email.toList ++ kd.2.phone.toList)).flatten.filter
      (fun c => ppPair c = kp ∧ c.contact_type = ContactType.phone)).length = 0 := by
  induction l with
  | nil => simp
  | cons hd tl ih =>
    simp only [List.map_cons, List.flatten_cons]
    have hkp : hd.1 ≠ kp := by
      intro hh
      exact hknot (by simp [← hh])
    have hh := h hd (List.mem_cons_self _ _)
    have hhead : ((hd.2.email.toList ++ hd.2.phone.toList).filter
        (fun c => ppPair c = kp ∧ c.contact_type = ContactType.phone)) = [] := by
      rw [List.filter_eq_nil]
      intro c hc
      simp only [decide_eq_true_eq, not_and]
      intro hpp hty
      rcases List.mem_append.mp hc with hc | hc
      · rcases hde : hd.2.email with _ | e
        · rw [hde] at hc
          cases hc
        · rw [hde] at hc
          have hce : c = e := by simpa using hc
          subst hce
          have h1 := (hh.1 c hde).2
          rw [h1] at hty
          cases hty
      · rcases hdp : hd.2.phone with _ | p
        · rw [hdp] at hc
          cases hc
        · rw [hdp] at hc
          have hce : c = p := by simpa using hc
          subst hce
          exact hkp ((hh.2 c hdp).1 ▸ hpp)
    rw [List.filter_append, hhead]
    simp only [List.nil_append]
    exact ih (fun hh2 => hknot (List.mem_cons_of_mem _ hh2))
      (fun kd hkd => h kd (List.mem_cons_of_mem _ hkd))

theorem slots_phone_filter_le_one (kp : String × String)
    (l : List ((String × String) × ChosenPair))
    (hnd : (l.map Prod.fst).Nodup)
    (h : ∀ kd ∈ l,
      (∀ e, kd.2.email = some e → ppPair e = kd.1 ∧ e.contact_type = ContactType.email) ∧
      (∀ e, kd.2.phone = some e → ppPair e = kd.1 ∧ e.contact_type = ContactType.phone)) :
    ((l.map (fun kd => kd.2.email.toList ++ kd.2.phone.toList)).flatten.filter
      (fun c => ppPair c = kp ∧ c.contact_type = ContactType.phone)).length ≤ 1 := by
  induction l with
  | nil => simp
  | cons hd tl ih =>
    simp only [List.map_cons, List.flatten_cons]
    rw [List.filter_append, List.length_append]
    have hh := h hd (List.mem_cons_self _ _)
    have hemail : (hd.2.email.toList.filter
        (fun c => ppPair c = kp ∧ c.contact_type = ContactType.phone)) = [] := by
      rw [List.filter_eq_nil]
      intro c hc
      simp only [decide_eq_true_eq, not_and]
      intro hpp hty
      rcases hde : hd.2.email with _ | e
      · rw [hde] at hc
        cases hc
      · rw [hde] at hc
        have hce : c = e := by simpa using hc
        subst hce
        have h1 := (hh.1 c hde).2
        rw [h1] at hty
        cases hty
    have hhead : ((hd.2.email.toList ++ hd.2.phone.toList).filter
        (fun c => ppPair c = kp ∧ c.contact_type = ContactType.phone)).length ≤ 1 := by
      rw [List.filter_append, hemail, List.length_append]
      simp only [List.length_nil, Nat.zero_add]
      calc (hd.2.phone.toList.filter _).length ≤ hd.2.phone.toList.length :=
            List.length_filter_le _ _
        _ ≤ 1 := by rcases hd.2.phone with _ | e <;> simp
    by_cases hkp : hd.1 = kp
    · have hknot : kp ∉ tl.map Prod.fst := by
        rw [← hkp]
        exact (List.nodup_cons.mp (by simpa using hnd)).1
      have htl := slots_phone_filter_nil kp tl hknot
        (fun kd hkd => h kd (List.mem_cons_of_mem _ hkd))
      omega
    · have hhead0 : ((hd.2.email.toList ++ hd.2.phone.toList).filter
          (fun c => ppPair c = kp ∧ c.contact_type = ContactType.phone)) = [] := by
        rw [List.filter_eq_nil]
        intro c hc
        simp only [decide_eq_true_eq, not_and]
        intro hpp hty
        rcases List.mem_append.mp hc with hc | hc
        · rcases hde : hd.2.email with _ | e
          · rw [hde] at hc
            cases hc
          · rw [hde] at hc
            have hce : c = e := by simpa using hc
            subst hce
            have h1 := (hh.1 c hde).2
            rw [h1] at hty
            cases hty
        · rcases hdp : hd.2.phone with _ | p
          · rw [hdp] at hc
            cases hc
          · rw [hdp] at hc
            have hce : c = p := by simpa using hc
            subst hce
            exact hkp ((hh.2 c hdp).1 ▸ hpp)
      rw [hhead0]
      simp only [List.length_nil, Nat.zero_add]
      exact ih (List.nodup_cons.mp (by simpa using hnd)).2
        (fun kd hkd => h kd (List.mem_cons_of_mem _ hkd))

/-- C6: the extractor's post-processing emits at most one e-mail and at most
one phone contact per normalized (company, person) pair, and every emitted
e-mail/phone contact is an input contact that no same-type same-pair input
contact strictly beats in the (anchor-sourced, known-role) lexicographic
quality order. -/
theorem claim_C6_theorem :
    (∀ (cs : List Contact) (kp : String × String),
      ((postprocess_and_dedup cs).filter
        (fun c => ppPair c = kp ∧ c.contact_type = ContactType.email)).length ≤ 1 ∧
      ((postprocess_and_dedup cs).filter
        (fun c => ppPair c = kp ∧ c.contact_type = ContactType.phone)).length ≤ 1) ∧
    (∀ (cs : List Contact) (c : Contact), c ∈ postprocess_and_dedup cs →
      c.contact_type = ContactType.email ∨ c.contact_type = ContactType.phone →
      c ∈ cs ∧ ∀ c2 ∈ cs, c2.contact_type = c.contact_type → ppPair c2 = ppPair c →
        ppBetter c2 c = false) := by
  have hentryW : ∀ (cs : List Contact),
      ∀ kd ∈ ((ppStage1 cs).foldl ppStage2Step ([], [], [])).1,
        (∀ e, kd.2.email = some e → ppPair e = kd.1 ∧ e.contact_type = ContactType.email) ∧
        (∀ e, kd.2.phone = some e → ppPair e = kd.1 ∧ e.contact_type = ContactType.phone) := by
    intro cs kd hkd
    obtain ⟨hE, hP⟩ := stage2_entry_facts cs kd hkd
    exact ⟨fun e he => ⟨(hE e he).1, (hE e he).2.1⟩,
      fun e he => ⟨(hP e he).1, (hP e he).2.1⟩⟩
  have hnd2 : ∀ (cs : List Contact),
      ((((ppStage1 cs).foldl ppStage2Step ([], [], [])).1).map Prod.fst).Nodup :=
    fun cs => (stage2_inv (ppStage1 cs)).1
  constructor
  · intro cs kp
    by_cases hcs : cs.isEmpty
    · simp [postprocess_and_dedup, hcs]
    · unfold postprocess_and_dedup
      rw [if_neg (by simpa using hcs)]
      have houtE : (((ppStage1 cs).foldl ppStage2Step ([], [], [])).2.2.filter
          (fun c => ppPair c = kp ∧ c.contact_type = ContactType.email)) = [] := by
        rw [List.filter_eq_nil]
        intro x hx
        simp only [decide_eq_true_eq, not_and]
        intro _ hty
        exact absurd hty (stage2_out_facts cs x hx).1
      have houtP : (((ppStage1 cs).foldl ppStage2Step ([], [], [])).2.2.filter
          (fun c => ppPair c = kp ∧ c.contact_type = ContactType.phone)) = [] := by
        rw [List.filter_eq_nil]
        intro x hx
        simp only [decide_eq_true_eq, not_and]
        intro _ hty
        exact absurd hty (stage2_out_facts cs x hx).2.1
      constructor
      · rw [List.filter_append, List.length_append, houtE]
        simp only [List.length_nil, Nat.zero_add]
        exact slots_email_filter_le_one kp _ (hnd2 cs) (hentryW cs)
      · rw [List.filter_append, List.length_append, houtP]
        simp only [List.length_nil, Nat.zero_add]
        exact slots_phone_filter_le_one kp _ (hnd2 cs) (hentryW cs)
  · intro cs c hc hty
    by_cases hcs : cs.isEmpty
    · rw [postprocess_and_dedup, if_pos (by simpa using hcs)] at hc
      cases hc
    · rw [postprocess_and_dedup, if_neg (by simpa using hcs)] at hc
      rcases List.mem_append.mp hc with hc | hc
      · obtain ⟨hne, hnp, _⟩ := stage2_out_facts cs c hc
        rcases hty with hty | hty
        · exact absurd hty hne
        · exact absurd hty hnp
      · obtain ⟨piece, hpmem, hcpiece⟩ := List.mem_flatten.mp hc
        obtain ⟨kd, hkd, hpeq⟩ := List.mem_map.mp hpmem
        rw [← hpeq] at hcpiece
        obtain ⟨hE, hP⟩ := stage2_entry_facts cs kd hkd
        rcases List.mem_append.mp hcpiece with hc2 | hc2
        · have hsome : kd.2.email = some c := by
            rcases hde : kd.2.email with _ | e
            · rw [hde] at hc2
              cases hc2
            · rw [hde] at hc2
              have : c = e := by simpa using hc2
              rw [this]
          obtain ⟨hpair, htype, hmem, hdom⟩ := hE c hsome
          refine ⟨hmem, ?_⟩
          intro c2 hc2m ht2 hp2
          exact hdom c2 hc2m (ht2.trans htype) (hp2.trans hpair)
        · have hsome : kd.2.phone = some c := by
            rcases hdp : kd.2.phone with _ | p
            · rw [hdp] at hc2
              cases hc2
            · rw [hdp] at hc2
              have : c = p := by simpa using hc2
              rw [this]
          obtain ⟨hpair, htype, hmem, hdom⟩ := hP c hsome
          refine ⟨hmem, ?_⟩
          intro c2 hc2m ht2 hp2
          exact hdom c2 hc2m (ht2.trans htype) (hp2.trans hpair)


/-- C6 witness: on the concrete text/anchor pair the kept e-mail is an input
element and the text-sourced rival does not beat it. -/
theorem claim_C6_witness :
    contactAnchor ∈ ([contactText, contactAnchor] : List Contact) ∧
      ppBetter contactText contactAnchor = false := by
  have h := claim_C6_theorem.2 [contactText, contactAnchor] contactAnchor
    (by decide) (Or.inl (by decide))
  exact ⟨h.1, h.2 contactText (by decide) (by decide) (by decide)⟩

/-- C2 counterexample: the original claim says no exception ever escapes
`ingest(url)`, for every URL. But `domain = self._extract_domain(url)` runs
before the `try`, and `urlparse` raises `ValueError("Invalid IPv6 URL")` on
`http://[` — the exception propagates out of `ingest`, whatever the
fetch/extraction collaborators would have done. -/
theorem claim_C2_counterexample :
    ingest envC2base "http://[" = Except.error "Invalid IPv6 URL" := rfl

/-- C2 (amended): when domain extraction succeeds, `ingest` returns an
`IngestResult` — either the body's value or, when the body raises, the
`Pipeline error` conversion; the only escaping exception is one raised by
`_extract_domain` before the `try`; a robots-disallowed URL short-circuits
`StaticFetcher.fetch` before any page request is consulted; a robots-blocked
fetch makes `ingest` return the fixed failure result (success = false, error
`Blocked by robots.txt`, no contacts) for every extraction/fetch oracle; an
HTTP status >= 400 likewise returns the `HTTP <status>` failure with no
extraction consulted. -/
theorem claim_C2_theorem :
    (∀ (env : IngestEnv) (url : String),
      (∃ e, extract_domain url = Except.error e ∧ ingest env url = Except.error e) ∨
      (∃ r, ingest env url = Except.ok r)) ∧
    (∀ (env : IngestEnv) (url domain : String),
      extract_domain url = Except.ok domain →
      (∃ r, ingestBody env url domain = Except.ok r ∧
        ingest env url = Except.ok r) ∨
      (∃ e, ingestBody env url domain = Except.error e ∧
        ingest env url = Except.ok (pipelineErrorResult url e))) ∧
    (∀ (pageGet : Except String HttpResp) (url : String),
      StaticFetcher.fetch false pageGet url = Except.ok (robotsBlockedFetch url)) ∧
    (∀ (env : IngestEnv) (url domain : String) (sr : FetchResult),
      extract_domain url = Except.ok domain →
      env.static_fetch = Except.ok sr → sr.blocked_by_robots = true →
      ingest env url = Except.ok (robotsBlockedResult url)) ∧
    (∀ (env : IngestEnv) (url domain : String) (sr : FetchResult),
      extract_domain url = Except.ok domain →
      env.static_fetch = Except.ok sr → sr.blocked_by_robots = false →
      sr.status_code ≥ 400 →
      ingest env url = Except.ok (httpFailResult url sr)) := by
  refine ⟨?_, ?_, ?_, ?_, ?_⟩
  · intro env url
    cases hd : extract_domain url with
    | error e => exact Or.inl ⟨e, rfl, by simp [ingest, hd]⟩
    | ok domain =>
      exact Or.inr ⟨(match ingestBody env url domain with
        | Except.ok r => r
        | Except.error e => pipelineErrorResult url e), by simp [ingest, hd]⟩
  · intro env url domain hd
    cases hb : ingestBody env url domain with
    | ok r => exact Or.inl ⟨r, rfl, by simp [ingest, hd, hb]⟩
    | error e => exact Or.inr ⟨e, rfl, by simp [ingest, hd, hb]⟩
  · intro pageGet url
    rfl
  · intro env url domain sr hd h hb
    simp [ingest, hd, ingestBody, h, ingestAfterFetch, hb, pure, Except.pure]
  · intro env url domain sr hd h hb hs
    simp [ingest, hd, ingestBody, h, ingestAfterFetch, hb, hs, pure, Except.pure]

/-- C2 witness: the robots-blocked and HTTP-404 early returns at concrete
environments, where the domain extracts to `example.com`. -/
theorem claim_C2_witness :
    ingest envC2base "https://example.com/team" =
        Except.ok (robotsBlockedResult "https://example.com/team") ∧
      ingest envC2_404 "https://example.com/team" =
        Except.ok (httpFailResult "https://example.com/team" sr404) :=
  ⟨claim_C2_theorem.2.2.2.1 envC2base "https://example.com/team" "example.com"
      srBlocked rfl rfl rfl,
   claim_C2_theorem.2.2.2.2 envC2_404 "https://example.com/team" "example.com"
      sr404 rfl rfl rfl (by decide)⟩

end EGC
